import Mathlib

/-!
# dataservicex: a generic CRUD data service

Shallow embedding of `dataservices.go`.  The package has two external
collaborators, the goqu query builder and the sqlx database handle.  Both are
embedded as records of functions, so every definition of the package is
translated as it stands and theorems about the package quantify over every
behaviour of the collaborators.

* A database handle works on a database state `σ`; each of its methods is a
  state transformer.
* What the builder returns from `ToSQL` (query text and parameters) is a value
  of a type `Q`.
* Every call on a collaborator is recorded in a trace (ghost state), so that
  "the calls an operation made" is something theorems can speak about.

The second part of the definitions is a reference database: tables of rows
with an integer auto-increment primary key, as created by the schema of
`tests/util.go`, used to state the CRUD round trips.  What depends on the
database engine and on the struct tags of the entity type is a parameter of it.
-/

namespace dataservicex

/-! ## Values and errors -/

/-- A Go value that travels to or from the database (`interface{}`), reduced to
the three shapes the tests use: SQL NULL, integers and text. -/
inductive Value where
  | null
  | int (i : Int)
  | text (s : String)
deriving DecidableEq, Repr

/-- A Go `error`.  `base` is an error made by a collaborator; `wrapf msg inner`
is `fmt.Errorf(msg + ": %w", inner)`. -/
inductive Error where
  | base (msg : String)
  | wrapf (msg : String) (inner : Error)
deriving DecidableEq, Repr

/-- Unwrapping, `e.wraps e0`: `e0` is `e` itself or is reached from `e` by unwrapping. -/
def Error.wraps : Error → Error → Bool
  | .base m, e0 => decide (Error.base m = e0)
  | .wrapf m i, e0 => decide (Error.wrapf m i = e0) || i.wraps e0

/-- The error part of a Go `(value, error)` result. -/
def errOf {α : Type} : Except Error α → Option Error
  | .ok _ => none
  | .error e => some e

/-! ## The query builder (goqu) -/

/-- The type `goqu.DialectWrapper`: a dialect is identified by its name. -/
structure DialectWrapper where
  dialect : String
deriving DecidableEq, Repr

/-- The constructor `goqu.Dialect(name)`. -/
def goqu.Dialect (name : String) : DialectWrapper := ⟨name⟩

/-- The type `goqu.Record`, a map from column names to values.  The value of a column is
the one `List.lookup` finds. -/
abbrev Record := List (String × Value)

/-- The condition `goqu.Ex{column: value}` with its single entry. -/
structure Ex where
  column : String
  value : Value
deriving DecidableEq, Repr

/-- The argument of `Set(...)`: an entity (`Update`) or a record
(`UpdateColumns`). -/
inductive SetArg (T : Type) where
  | entity (m : T)
  | record (r : Record)

/-- The datasets the package builds before calling `ToSQL`:
`From(table)[.Where(ex)]`, `Insert(table).Rows(m)[.Returning(col)]`,
`Update(table).Set(arg).Where(ex)` and `Delete(table).Where(ex)`. -/
inductive Stmt (T : Type) where
  | select (table : String) (cond : Option Ex)
  | insert (table : String) (rows : T) (returning : Option String)
  | update (table : String) (set : SetArg T) (cond : Ex)
  | delete (table : String) (cond : Ex)

/-- The call `q.Returning(col)` on an insert dataset. -/
def Stmt.Returning {T : Type} : Stmt T → String → Stmt T
  | .insert table rows _, col => .insert table rows (some col)
  | s, _ => s

/-- The table a dataset names. -/
def Stmt.table {T : Type} : Stmt T → String
  | .select t _ => t
  | .insert t _ _ => t
  | .update t _ _ => t
  | .delete t _ => t

/-- The column of the `Where(goqu.Ex{...})` clause of a dataset, if it has one. -/
def Stmt.condColumn {T : Type} : Stmt T → Option String
  | .select _ c => c.map Ex.column
  | .insert _ _ _ => none
  | .update _ _ c => some c.column
  | .delete _ c => some c.column

/-- The column of the `Returning(...)` clause of a dataset, if it has one. -/
def Stmt.returningColumn {T : Type} : Stmt T → Option String
  | .insert _ _ r => r
  | _ => none

/-- The goqu engine: `ToSQL` of a dataset under a dialect gives the query (text
and parameters, a value of `Q`) or an error. -/
structure Builder (Q T : Type) where
  ToSQL : DialectWrapper → Stmt T → Except Error Q

/-! ## The database handle (sqlx) -/

/-- The type `sql.Result`, of which the package uses `LastInsertId()`. -/
structure Result where
  LastInsertId : Except Error Int

/-- The handle `*sqlx.DB` over database states `σ`.  `SelectContext` and `GetContext` get
the destination as it is before the call and return it as it is after the call,
with the error.  `QueryRowxContextScan` is `QueryRowxContext(...).Scan(&id)`. -/
structure DB (σ Q T : Type) where
  DriverName : String
  SelectContext : Q → List T → σ → (List T × Option Error) × σ
  GetContext : Q → T → σ → (T × Option Error) × σ
  ExecContext : Q → σ → Except Error Result × σ
  QueryRowxContextScan : Q → σ → Except Error Int × σ

/-! ## Trace of collaborator calls -/

/-- A call on a collaborator: `ToSQL` on the builder, the others on the
database handle or on a value the handle returned (`Row.Scan` is part of
`QueryRowxContext`, `LastInsertId` is called on the `sql.Result`). -/
inductive Call (Q T : Type) where
  | ToSQL (d : DialectWrapper) (s : Stmt T)
  | DriverName
  | SelectContext (q : Q)
  | GetContext (q : Q)
  | ExecContext (q : Q)
  | QueryRowxContext (q : Q)
  | LastInsertId

/-- Whether the call is made on the database handle (or on a value it
returned), as opposed to the builder. -/
def Call.onHandle {Q T : Type} : Call Q T → Bool
  | .ToSQL _ _ => false
  | _ => true

/-- Whether the call hands a query to the database. -/
def Call.executes {Q T : Type} : Call Q T → Bool
  | .SelectContext _ => true
  | .GetContext _ => true
  | .ExecContext _ => true
  | .QueryRowxContext _ => true
  | _ => false

/-- A call together with the error it returned (`none` for nil). -/
structure Event (Q T : Type) where
  call : Call Q T
  err : Option Error

/-- The database state and the calls made so far. -/
structure World (σ Q T : Type) where
  state : σ
  trace : List (Event Q T)

section Calls
variable {σ Q T : Type}

/-- Append a call and its error to the trace. -/
def World.log (w : World σ Q T) (c : Call Q T) (e : Option Error) : World σ Q T :=
  { w with trace := w.trace ++ [⟨c, e⟩] }

/-- The call `dataset.ToSQL()`, recorded in the trace. -/
def callToSQL (B : Builder Q T) (d : DialectWrapper) (s : Stmt T) (w : World σ Q T) :
    Except Error Q × World σ Q T :=
  (B.ToSQL d s, w.log (.ToSQL d s) (errOf (B.ToSQL d s)))

/-- The call `db.DriverName()`, recorded in the trace. -/
def callDriverName (db : DB σ Q T) (w : World σ Q T) : String × World σ Q T :=
  (db.DriverName, w.log .DriverName none)

/-- The call `db.SelectContext(ctx, &dest, query, params...)`, recorded in the
trace. -/
def callSelectContext (db : DB σ Q T) (q : Q) (dest : List T) (w : World σ Q T) :
    (List T × Option Error) × World σ Q T :=
  ((db.SelectContext q dest w.state).1,
    { state := (db.SelectContext q dest w.state).2,
      trace := w.trace ++ [⟨.SelectContext q, (db.SelectContext q dest w.state).1.2⟩] })

/-- The call `db.GetContext(ctx, &dest, query, params...)`, recorded in the
trace. -/
def callGetContext (db : DB σ Q T) (q : Q) (dest : T) (w : World σ Q T) :
    (T × Option Error) × World σ Q T :=
  ((db.GetContext q dest w.state).1,
    { state := (db.GetContext q dest w.state).2,
      trace := w.trace ++ [⟨.GetContext q, (db.GetContext q dest w.state).1.2⟩] })

/-- The call `db.ExecContext(ctx, query, params...)`, recorded in the trace. -/
def callExecContext (db : DB σ Q T) (q : Q) (w : World σ Q T) :
    Except Error Result × World σ Q T :=
  ((db.ExecContext q w.state).1,
    { state := (db.ExecContext q w.state).2,
      trace := w.trace ++ [⟨.ExecContext q, errOf (db.ExecContext q w.state).1⟩] })

/-- The call `db.QueryRowxContext(ctx, query, params...).Scan(&insertedID)`,
recorded in the trace. -/
def callQueryRowxContextScan (db : DB σ Q T) (q : Q) (w : World σ Q T) :
    Except Error Int × World σ Q T :=
  ((db.QueryRowxContextScan q w.state).1,
    { state := (db.QueryRowxContextScan q w.state).2,
      trace := w.trace ++ [⟨.QueryRowxContext q, errOf (db.QueryRowxContextScan q w.state).1⟩] })

/-- The call `result.LastInsertId()`, recorded in the trace. -/
def callLastInsertId (r : Result) (w : World σ Q T) : Except Error Int × World σ Q T :=
  (r.LastInsertId, w.log .LastInsertId (errOf r.LastInsertId))

end Calls

/-! ## The package -/

/-- The `model` interface: an entity type reports its identifier column and its
table.  Both are methods, called on a value of the type; `zero` is the value of
`var t T`. -/
structure model (T : Type) where
  zero : T
  IDColumnName : T → String
  TableName : T → String

/-- The struct `DataServices[T]`: the database handle and the dialect. -/
structure DataServices (D : Type) where
  db : D
  dialect : DialectWrapper

/-- The constructor `NewDataServices(db, options...)`: the options are applied in
order to the service that holds `db` and the default dialect. -/
def NewDataServices {D : Type} (db : D) (options : List (DataServices D → DataServices D)) :
    DataServices D :=
  options.foldl (fun ds option => option ds) { db := db, dialect := goqu.Dialect "default" }

/-- The option `WithDialect(dialect)`. -/
def WithDialect {D : Type} (dialect : DialectWrapper) : DataServices D → DataServices D :=
  fun s => { s with dialect := dialect }

/-- Modelled from the spec: `GetDialect`, which `TestGetDialect` calls on the
service and `dataservices.go` does not define; it reports the dialect the
service holds. -/
def GetDialect {D : Type} (ds : DataServices D) : DialectWrapper :=
  ds.dialect

section Operations
variable {σ Q T : Type}

/-- The method `GetList`.  The list returned is the destination as `SelectContext` left
it. -/
def GetList (B : Builder Q T) (M : model T) (ds : DataServices (DB σ Q T))
    (w : World σ Q T) : (List T × Option Error) × World σ Q T :=
  let t := M.zero
  match callToSQL B ds.dialect (.select (M.TableName t) none) w with
  | (.error err, w1) => (([], some (.wrapf "fail to build select sql script" err)), w1)
  | (.ok query, w1) => callSelectContext ds.db query [] w1

/-- The method `GetByID`.  The entity returned is the destination as `GetContext` left
it. -/
def GetByID (B : Builder Q T) (M : model T) (ds : DataServices (DB σ Q T)) (id : Value)
    (w : World σ Q T) : (T × Option Error) × World σ Q T :=
  let t := M.zero
  match callToSQL B ds.dialect (.select (M.TableName t) (some ⟨M.IDColumnName t, id⟩)) w with
  | (.error err, w1) => ((t, some (.wrapf "fail to build get sql script" err)), w1)
  | (.ok query, w1) => callGetContext ds.db query t w1

/-- The method `Create`.  The driver name is read before the build and again
after it; on a postgres handle the insert returns the column `id`. -/
def Create (B : Builder Q T) (M : model T) (ds : DataServices (DB σ Q T)) (m : T)
    (w : World σ Q T) : (T × Option Error) × World σ Q T :=
  let q : Stmt T := .insert (M.TableName m) m none
  let d1 := callDriverName ds.db w
  let q := if d1.1 = "postgres" then q.Returning "id" else q
  match callToSQL B ds.dialect q d1.2 with
  | (.error err, w2) => ((m, some (.wrapf "fail to build insert sql script" err)), w2)
  | (.ok query, w2) =>
    let d2 := callDriverName ds.db w2
    if d2.1 = "postgres" then
      match callQueryRowxContextScan ds.db query d2.2 with
      | (.error err, w4) => ((m, some (.wrapf "fail to execute insert sql script" err)), w4)
      | (.ok insertedID, w4) => GetByID B M ds (.int insertedID) w4
    else
      match callExecContext ds.db query d2.2 with
      | (.error err, w4) => ((m, some (.wrapf "fail to execute insert sql script" err)), w4)
      | (.ok result, w4) =>
        match callLastInsertId result w4 with
        | (.error err, w5) =>
          ((m, some (.wrapf "query affected id of insert sql script" err)), w5)
        | (.ok insertedID, w5) => GetByID B M ds (.int insertedID) w5

/-- The method `Update`. -/
def Update (B : Builder Q T) (M : model T) (ds : DataServices (DB σ Q T)) (id : Value)
    (updating : T) (w : World σ Q T) : (T × Option Error) × World σ Q T :=
  match callToSQL B ds.dialect
      (.update (M.TableName updating) (.entity updating) ⟨M.IDColumnName updating, id⟩) w with
  | (.error err, w1) => ((updating, some (.wrapf "fail to build update sql script" err)), w1)
  | (.ok query, w1) =>
    match callExecContext ds.db query w1 with
    | (.error err, w2) =>
      ((updating, some (.wrapf "fail to execute update sql script" err)), w2)
    | (.ok _, w2) => GetByID B M ds id w2

/-- The method `UpdateColumns`. -/
def UpdateColumns (B : Builder Q T) (M : model T) (ds : DataServices (DB σ Q T)) (id : Value)
    (record : Record) (w : World σ Q T) : Option Error × World σ Q T :=
  let m := M.zero
  match callToSQL B ds.dialect
      (.update (M.TableName m) (.record record) ⟨M.IDColumnName m, id⟩) w with
  | (.error err, w1) => (some (.wrapf "fail to build update sql script" err), w1)
  | (.ok query, w1) =>
    match callExecContext ds.db query w1 with
    | (.error err, w2) => (some (.wrapf "fail to execute update sql script" err), w2)
    | (.ok _, w2) => (none, w2)

/-- The method `Delete`.  The error of `ExecContext` is returned as it is. -/
def Delete (B : Builder Q T) (M : model T) (ds : DataServices (DB σ Q T)) (id : Value)
    (w : World σ Q T) : Option Error × World σ Q T :=
  let t := M.zero
  match callToSQL B ds.dialect (.delete (M.TableName t) ⟨M.IDColumnName t, id⟩) w with
  | (.error err, w1) => (some (.wrapf "fail to build update sql script" err), w1)
  | (.ok query, w1) =>
    match callExecContext ds.db query w1 with
    | (.error err, w2) => (some err, w2)
    | (.ok _, w2) => (none, w2)

end Operations

/-! ## What a trace says about an error -/

section TraceDefs
variable {Q T : Type}

/-- The error of the first call of the list that returned one. -/
def firstErr : List (Event Q T) → Option Error
  | [] => none
  | ev :: rest =>
    match ev.err with
    | some e => some e
    | none => firstErr rest

/-- The calls `evs` account for the error `err` of an operation: the operation
returns an error exactly when one of the calls did, that error is the first
failing call's error or wraps it, and no call follows a failed call. -/
def Propagates (evs : List (Event Q T)) (err : Option Error) : Prop :=
  (err = none ↔ ∀ ev ∈ evs, ev.err = none) ∧
  (∀ e, err = some e → ∃ e0, firstErr evs = some e0 ∧ e.wraps e0 = true) ∧
  (∀ pre ev post, evs = pre ++ ev :: post → ev.err ≠ none → post = [])

end TraceDefs

/-! ## Reference database

The setting of the package's tests: every table has an integer auto-increment
primary key in the column the zero entity names as its identifier column, and
no triggers.  What differs between database engines (how column names are compared, what
value a column holds after it is given a value, which values denote a key) and
what differs between entity types (which columns goqu writes for an entity,
which values can be scanned into its fields) are parameters.  The reference
builder renders every dataset; the reference handle executes the rendered
statement on tables held in memory. -/

/-- A table row, and the entity scanned from it: the integer key and the other
columns by name.  Of an entity these are the fields mapped to a column; a field
tagged `db:"-"` is no column, is neither written nor read, and is not part of
the row. -/
structure Row where
  ID : Int
  fields : List (String × Value)
deriving DecidableEq, Repr

/-- What is particular to a database engine.
* `norm`: two column names denote the same column when their `norm` is equal
  (MySQL compares column names without regard to case).
* `store table column v`: the value the column holds, as a read returns it,
  after a statement gives it `v` (a TIMESTAMP column truncates, an INT column
  converts text), or the error with which the statement is rejected (unknown
  column, value out of range).
* `castKey v`: the key a value that is not an integer denotes, if any, when it
  is compared with or given to the key column.
* `autoZero`: whether an insert that gives the key 0 gets the next key, as in
  MySQL, instead of the key 0.
* `touch table fields`: the columns of a row of the table after what the
  database does on its own to a row an update reaches (a column declared
  `ON UPDATE CURRENT_TIMESTAMP`); the assignments of the statement come on top
  of it. -/
structure Engine where
  norm : String → String
  store : String → String → Value → Except Error Value
  castKey : Value → Option Int
  autoZero : Bool
  touch : String → List (String × Value) → List (String × Value)

/-- The engine that compares names exactly, stores every value as given, takes
only integers for keys and changes no column on its own. -/
def Engine.plain : Engine where
  norm := fun a => a
  store := fun _ _ v => .ok v
  castKey := fun _ => none
  autoZero := true
  touch := fun _ f => f

/-- An engine whose column `created_at` keeps a time to the second: of a text
it stores the first 19 characters (`2006-01-02 15:04:05`), as a TIMESTAMP
column does with the fraction of a second. -/
def Engine.seconds : Engine where
  norm := fun a => a
  store := fun _ col v =>
    match v with
    | .text s => if col = "created_at" then .ok (.text (String.mk (s.data.take 19))) else .ok v
    | _ => .ok v
  castKey := fun _ => none
  autoZero := true
  touch := fun _ f => f

/-- An engine that, in the manner of MySQL, compares column names after folding
`A`-`Z` to lower case. -/
def Engine.folding : Engine where
  norm := fun a => String.mk (a.data.map Char.toLower)
  store := fun _ _ v => .ok v
  castKey := fun _ => none
  autoZero := true
  touch := fun _ f => f

/-- An engine whose tables have a column `created_at` declared
`ON UPDATE CURRENT_TIMESTAMP`: an update gives it the time of the update. -/
def Engine.stamping : Engine where
  norm := fun a => a
  store := fun _ _ v => .ok v
  castKey := fun _ => none
  autoZero := true
  touch := fun _ f =>
    f.map (fun c => if c.1 = "created_at" then (c.1, Value.text "2024-01-02 03:04:06") else c)

/-- The key a value denotes. -/
def Engine.keyOf (eng : Engine) : Value → Option Int
  | .int k => some k
  | v => eng.castKey v

/-- What an entity struct type declares: its methods `TableName()` and
`IDColumnName()`, which are given the entity they are called on, the columns
goqu writes for an entity in an insert and in an update (its struct tags
decide: `skipinsert`, `skipupdate`, `omitempty`, ...), the zero values of its
fields, which values `database/sql` can scan into the field of a column (NULL
cannot be scanned into a `string` or an `int64`), and what a destination holds
after a scan into it failed. -/
structure EntityType where
  tableOf : Row → String
  idColumnOf : Row → String
  insertColumns : Row → Record
  updateColumns : Row → Record
  zeroFields : List (String × Value)
  scans : String → Value → Bool
  halfScanned : Row → Row → Row

/-- The columns goqu writes for an entity whose fields carry the skip tag of the
statement exactly for the columns `skip`: the identifier column and the other
fields, the tagged ones left out. -/
def taggedColumns (K : String) (skip : List String) (m : Row) : Record :=
  (if K ∈ skip then [] else [(K, Value.int m.ID)]) ++
    m.fields.filter (fun c => decide (c.1 ≠ K) && decide (c.1 ∉ skip))

/-- The zero entity, `var t T`. -/
abbrev EntityType.zero (E : EntityType) : Row := ⟨0, E.zeroFields⟩

/-- The table of the entity type: the one its zero entity reports, which is the
one `GetList`, `GetByID`, `UpdateColumns` and `Delete` work on. -/
abbrev EntityType.table (E : EntityType) : String := E.tableOf E.zero

/-- The identifier column of the entity type: the one its zero entity reports.
It is the key column of the tables of the reference database. -/
abbrev EntityType.idColumn (E : EntityType) : String := E.idColumnOf E.zero

/-- The `model` methods of an entity struct type. -/
def EntityType.model (E : EntityType) : model Row where
  zero := E.zero
  IDColumnName := E.idColumnOf
  TableName := E.tableOf

/-- The value a list of columns holds for the column `col`. -/
def lookupCol (eng : Engine) (col : String) : List (String × Value) → Option Value
  | [] => none
  | (c, v) :: rest => if eng.norm c = eng.norm col then some v else lookupCol eng col rest

/-- The value of column `col` of a row whose key column is `K`. -/
def Row.get (eng : Engine) (K : String) (r : Row) (col : String) : Option Value :=
  if eng.norm col = eng.norm K then some (.int r.ID) else lookupCol eng col r.fields

/-- The statement the builder renders, with the columns it writes spelled
out. -/
inductive SQL where
  | select (table : String) (cond : Option Ex)
  | insert (table : String) (values : Record) (returning : Option String)
  | update (table : String) (set : Record) (cond : Ex)
  | delete (table : String) (cond : Ex)
deriving DecidableEq, Repr

/-- The reference builder for entities of type `E`, the same for every
dialect. -/
def refBuilder (E : EntityType) : Builder SQL Row where
  ToSQL := fun _ s =>
    match s with
    | .select t c => .ok (.select t c)
    | .insert t m r => .ok (.insert t (E.insertColumns m) r)
    | .update t (.entity m) c => .ok (.update t (E.updateColumns m) c)
    | .update t (.record r) c => .ok (.update t r c)
    | .delete t c => .ok (.delete t c)

/-- A database state: the rows of every table. -/
abbrev Store := String → List Row

/-- The error `sql.ErrNoRows`. -/
def ErrNoRows : Error := .base "sql: no rows in result set"

/-- The error of a scan that cannot convert a column into its destination. -/
def ErrScan : Error := .base "sql: Scan error: converting driver.Value type"

/-- Whether a row satisfies `WHERE column = value`. -/
def Row.satisfies (eng : Engine) (K : String) (c : Ex) (r : Row) : Bool :=
  if eng.norm c.column = eng.norm K then decide (eng.keyOf c.value = some r.ID)
  else decide (lookupCol eng c.column r.fields = some c.value)

/-- The rows a select statement returns. -/
def selectRows (eng : Engine) (K : String) (rows : List Row) : Option Ex → List Row
  | none => rows
  | some c => rows.filter (Row.satisfies eng K c)

/-- The largest key of a table, 0 for an empty one. -/
def maxID : List Row → Int
  | [] => 0
  | r :: rs => max r.ID (maxID rs)

/-- What the assignments of a statement amount to: the value given to the key
column, if one is, and for the other columns the values the database stores.
The statement is rejected when the database rejects one of the values. -/
def prepare (eng : Engine) (K t : String) :
    Record → Except Error (Option Value × List (String × Value))
  | [] => .ok (none, [])
  | (name, v) :: rest =>
    match prepare eng K t rest with
    | .error e => .error e
    | .ok (key, cols) =>
      if eng.norm name = eng.norm K then .ok (some v, cols)
      else
        match eng.store t name v with
        | .error e => .error e
        | .ok v1 => .ok (key, (name, v1) :: cols)

/-- The key under which an insert stores its row: the next key when the
statement gives none (no value, NULL, or 0 where the engine takes 0 so), else
the key it gives, which must not be in use. -/
def insertKey (eng : Engine) (rows : List Row) : Option Value → Except Error Int
  | none => .ok (maxID rows + 1)
  | some v =>
    if v = .null then .ok (maxID rows + 1)
    else
      match eng.keyOf v with
      | none => .error (.base "incorrect integer value")
      | some k =>
        if k = 0 ∧ eng.autoZero = true then .ok (maxID rows + 1)
        else if rows.any (fun r => decide (r.ID = k)) then
          .error (.base "duplicate entry for key PRIMARY")
        else .ok k

/-- Execute an insert: the stored row, and the state with the row appended to
the table. -/
def execInsert (eng : Engine) (K : String) (s : Store) (t : String) (values : Record) :
    Except Error Row × Store :=
  match prepare eng K t values with
  | .error e => (.error e, s)
  | .ok (key, cols) =>
    match insertKey eng (s t) key with
    | .error e => (.error e, s)
    | .ok k => (.ok ⟨k, cols⟩, Function.update s t (s t ++ [⟨k, cols⟩]))

/-- Give column `col` the value `v`: in place when the row has the column, at
the end when it has not. -/
def upsertCol (eng : Engine) :
    List (String × Value) → String → Value → List (String × Value)
  | [], col, v => [(col, v)]
  | (c, x) :: rest, col, v =>
    if eng.norm c = eng.norm col then (c, v) :: rest else (c, x) :: upsertCol eng rest col v

/-- The columns of a row after the assignments `cols`. -/
def setFields (eng : Engine) (cols : List (String × Value)) (fields : List (String × Value)) :
    List (String × Value) :=
  cols.foldr (fun c f => upsertCol eng f c.1 c.2) fields

/-- The key an update gives a row: `none` when the key column is not set, an
error when it is set to a value that denotes no key. -/
def setKey (eng : Engine) : Option Value → Except Error (Option Int)
  | none => .ok none
  | some v =>
    match eng.keyOf v with
    | some k => .ok (some k)
    | none => .error (.base "incorrect integer value")

/-- A row of table `t` after an update that gives it the key `key` and the
columns `cols`. -/
def Row.assign (eng : Engine) (t : String) (cols : List (String × Value)) (key : Option Int)
    (r : Row) : Row :=
  ⟨key.getD r.ID, setFields eng cols (eng.touch t r.fields)⟩

/-- Execute a rendered statement: the rows it returns, the key it inserted (0
when it inserted none), and the state after it. -/
def run (eng : Engine) (K : String) (q : SQL) (s : Store) :
    Except Error (List Row × Int) × Store :=
  match q with
  | .select t c => (.ok (selectRows eng K (s t) c, 0), s)
  | .insert t values _ =>
    match execInsert eng K s t values with
    | (.error e, s1) => (.error e, s1)
    | (.ok row, s1) => (.ok ([], row.ID), s1)
  | .update t set c =>
    match prepare eng K t set with
    | .error e => (.error e, s)
    | .ok (kv, cols) =>
      match setKey eng kv with
      | .error e => (.error e, s)
      | .ok key =>
        (.ok ([], 0), Function.update s t
          ((s t).map (fun r => if r.satisfies eng K c then r.assign eng t cols key else r)))
  | .delete t c =>
    (.ok ([], 0), Function.update s t ((s t).filter (fun r => !r.satisfies eng K c)))

/-- The call `QueryRowxContext(...).Scan(&id)` on the reference database.  For an
insert with `RETURNING col` the statement is rejected when the stored row has no
such column, and the scan fails (after the insert) when the column holds no
integer.  Any other statement is executed and returns nothing to scan. -/
def runScan (eng : Engine) (K : String) (q : SQL) (s : Store) : Except Error Int × Store :=
  match q with
  | .insert t values (some col) =>
    match execInsert eng K s t values with
    | (.error e, s1) => (.error e, s1)
    | (.ok row, s1) =>
      match row.get eng K col with
      | none => (.error (.base "column does not exist"), s)
      | some (.int v) => (.ok v, s1)
      | some _ => (.error (.base "converting driver.Value type to int64"), s1)
  | q => (.error ErrNoRows, (run eng K q s).2)

/-- Whether a row can be scanned into an entity: every column into its field. -/
def EntityType.scansRow (E : EntityType) (r : Row) : Bool :=
  E.scans E.idColumn (.int r.ID) && r.fields.all (fun c => E.scans c.1 c.2)

/-- Scan rows into entities, in order, up to the first row that cannot be
scanned. -/
def scanAll (E : EntityType) : List Row → List Row × Option Error
  | [] => ([], none)
  | r :: rest =>
    if E.scansRow r then (r :: (scanAll E rest).1, (scanAll E rest).2)
    else ([], some ErrScan)

/-- The reference database handle for entities of type `E` on the engine `eng`,
reporting driver name `driver`. -/
def refDB (eng : Engine) (E : EntityType) (driver : String) : DB Store SQL Row where
  DriverName := driver
  SelectContext := fun q dest s =>
    match run eng E.idColumn q s with
    | (.error e, s1) => ((dest, some e), s1)
    | (.ok (rows, _), s1) => ((dest ++ (scanAll E rows).1, (scanAll E rows).2), s1)
  GetContext := fun q dest s =>
    match run eng E.idColumn q s with
    | (.error e, s1) => ((dest, some e), s1)
    | (.ok ([], _), s1) => ((dest, some ErrNoRows), s1)
    | (.ok (row :: _, _), s1) =>
      if E.scansRow row then ((row, none), s1)
      else ((E.halfScanned dest row, some ErrScan), s1)
  ExecContext := fun q s =>
    match run eng E.idColumn q s with
    | (.error e, s1) => (.error e, s1)
    | (.ok (_, id), s1) => (.ok ⟨.ok id⟩, s1)
  QueryRowxContextScan := runScan eng E.idColumn

/-- What `GetByID(id)` returns on the reference database when the entity's table
holds `rows`. -/
def getRow (eng : Engine) (E : EntityType) (id : Value) (rows : List Row) :
    Row × Option Error :=
  match selectRows eng E.idColumn rows (some ⟨E.idColumn, id⟩) with
  | [] => (E.model.zero, some ErrNoRows)
  | row :: _ =>
    if E.scansRow row then (row, none)
    else (E.halfScanned E.model.zero row, some ErrScan)

/-- The service of the tests: `NewDataServices(db, WithDialect(dialect))` on
the reference handle. -/
def refService (eng : Engine) (E : EntityType) (driver : String) (dialect : DialectWrapper) :
    DataServices (DB Store SQL Row) :=
  NewDataServices (refDB eng E driver) [WithDialect dialect]

/-- The test's `assert.NoError(Delete(id))` for each identifier of a list, in
order, stopping at the first error. -/
def DeleteEach {σ Q T : Type} (B : Builder Q T) (M : model T) (ds : DataServices (DB σ Q T)) :
    List Value → World σ Q T → Option Error × World σ Q T
  | [], w => (none, w)
  | id :: ids, w =>
    match Delete B M ds id w with
    | (some e, w1) => (some e, w1)
    | (none, w1) => DeleteEach B M ds ids w1

/-- The statements handed to `ToSQL` in a trace, in order. -/
def builtStmts {Q T : Type} : List (Event Q T) → List (Stmt T)
  | [] => []
  | ⟨.ToSQL _ s, _⟩ :: rest => s :: builtStmts rest
  | _ :: rest => builtStmts rest

/-! ## Data of the tests -/

/-- The `Person` of `dataservices_test.go`: table `person`, identifier column
`person_id`, whose field is tagged `skipupdate`; `Name` and `Age` cannot hold
NULL, `CreatedAt` can. -/
def unitPerson : EntityType where
  tableOf := fun _ => "person"
  idColumnOf := fun _ => "person_id"
  insertColumns := taggedColumns "person_id" []
  updateColumns := taggedColumns "person_id" ["person_id"]
  zeroFields := [("name", .text ""), ("age", .int 0)]
  scans := fun col v => decide (v ≠ .null) || decide (col = "created_at")
  halfScanned := fun dest _ => dest

/-- A `Person` whose `Age` field is tagged `skipupdate` as well. -/
def taggedPerson : EntityType where
  tableOf := fun _ => "person"
  idColumnOf := fun _ => "person_id"
  insertColumns := taggedColumns "person_id" []
  updateColumns := taggedColumns "person_id" ["person_id", "age"]
  zeroFields := [("name", .text ""), ("age", .int 0)]
  scans := fun col v => decide (v ≠ .null) || decide (col = "created_at")
  halfScanned := fun dest _ => dest

/-- A `Person` kept in one table per shard: `TableName()` is `person_b` for an
entity of shard `b` and `person` otherwise, so also for the zero entity. -/
def shardedPerson : EntityType where
  tableOf := fun r =>
    match r.fields.lookup "shard" with
    | some (.text "b") => "person_b"
    | _ => "person"
  idColumnOf := fun _ => "person_id"
  insertColumns := taggedColumns "person_id" []
  updateColumns := taggedColumns "person_id" ["person_id"]
  zeroFields := [("shard", .text ""), ("name", .text "")]
  scans := fun col v => decide (v ≠ .null) || decide (col = "created_at")
  halfScanned := fun dest _ => dest

/-- The service of `TestCRUD`: a mysql handle with the mysql dialect. -/
def mysqlService : DataServices (DB Store SQL Row) :=
  refService Engine.plain unitPerson "mysql" (goqu.Dialect "mysql")

/-- The same service on a handle whose driver is postgres. -/
def postgresService : DataServices (DB Store SQL Row) :=
  refService Engine.plain unitPerson "postgres" (goqu.Dialect "postgres")

/-- A database with no rows. -/
def emptyStore : Store := fun _ => []

/-- A database whose `person` table holds one row, with key 1. -/
def onePerson : Store :=
  fun t => if t = "person" then [⟨1, [("name", .text "a")]⟩] else []

/-- A database whose `person` table holds one row, with key 1, a name and the
time it was created. -/
def datedPerson : Store :=
  fun t =>
    if t = "person" then
      [⟨1, [("name", .text "a"), ("created_at", .text "2024-01-01 00:00:00")]⟩]
    else []

/-- A database whose `person` table holds one row, with key 1, a name and an
age. -/
def agedPerson : Store :=
  fun t => if t = "person" then [⟨1, [("name", .text "a"), ("age", .int 25)]⟩] else []

/-- A builder whose `ToSQL` fails on every dataset. -/
def rejectAll : Builder SQL Row where
  ToSQL := fun _ _ => .error (.base "goqu: unable to build sql")

/-! ## Theorems: errors and traces -/

theorem Error.wraps_refl (e : Error) : e.wraps e = true := by
  cases e <;> simp [Error.wraps]

theorem Error.wraps_wrapf (msg : String) (e : Error) : (Error.wrapf msg e).wraps e = true := by
  simp [Error.wraps, Error.wraps_refl]

section TraceLemmas
variable {Q T : Type}

theorem propagates_nil : Propagates ([] : List (Event Q T)) none := by
  refine ⟨by simp, by simp, ?_⟩
  intro pre ev post h
  simp at h

theorem propagates_cons_ok {ev : Event Q T} {evs : List (Event Q T)} {err : Option Error}
    (hev : ev.err = none) (h : Propagates evs err) : Propagates (ev :: evs) err := by
  obtain ⟨h1, h2, h3⟩ := h
  refine ⟨?_, ?_, ?_⟩
  · simp [h1, hev]
  · intro e he
    simpa [firstErr, hev] using h2 e he
  · intro pre ev2 post hsplit hne
    cases pre with
    | nil =>
      simp only [List.nil_append, List.cons.injEq] at hsplit
      exact absurd (hsplit.1 ▸ hev) hne
    | cons p pre =>
      simp only [List.cons_append, List.cons.injEq] at hsplit
      exact h3 pre ev2 post hsplit.2 hne

theorem propagates_single_fail {ev : Event Q T} {e e0 : Error}
    (hev : ev.err = some e0) (hw : e.wraps e0 = true) : Propagates [ev] (some e) := by
  refine ⟨?_, ?_, ?_⟩
  · simp [hev]
  · intro e2 he
    cases he
    exact ⟨e0, by simp [firstErr, hev], hw⟩
  · intro pre ev2 post hsplit _
    cases pre with
    | nil =>
      simp only [List.nil_append, List.cons.injEq] at hsplit
      exact hsplit.2.symm
    | cons p pre =>
      simp at hsplit

theorem propagates_append_ok {pre evs : List (Event Q T)} {err : Option Error}
    (hpre : ∀ ev ∈ pre, ev.err = none) (h : Propagates evs err) :
    Propagates (pre ++ evs) err := by
  induction pre with
  | nil => simpa using h
  | cons p pre ih =>
    simp only [List.cons_append]
    exact propagates_cons_ok (hpre p (List.mem_cons_self _ _))
      (ih (fun ev hev => hpre ev (List.mem_cons_of_mem _ hev)))

end TraceLemmas

/-! ## Theorems: errors are propagated or wrapped -/

section Propagation
variable {σ Q T : Type}

theorem GetList_propagates (B : Builder Q T) (M : model T) (ds : DataServices (DB σ Q T))
    (w : World σ Q T) :
    ∃ evs, (GetList B M ds w).2.trace = w.trace ++ evs ∧
      Propagates evs (GetList B M ds w).1.2 := by
  cases h : B.ToSQL ds.dialect (.select (M.TableName M.zero) none) with
  | error e =>
    refine ⟨[⟨.ToSQL ds.dialect (.select (M.TableName M.zero) none), some e⟩], ?_, ?_⟩
    · simp [GetList, callToSQL, h, World.log, errOf]
    · simp only [GetList, callToSQL, h]
      exact propagates_single_fail rfl (Error.wraps_wrapf _ _)
  | ok q =>
    refine ⟨[⟨.ToSQL ds.dialect (.select (M.TableName M.zero) none), none⟩,
      ⟨.SelectContext q, (ds.db.SelectContext q [] w.state).1.2⟩], ?_, ?_⟩
    · simp [GetList, callToSQL, h, World.log, errOf, callSelectContext]
    · simp only [GetList, callToSQL, h, callSelectContext, World.log]
      apply propagates_cons_ok rfl
      cases (ds.db.SelectContext q [] w.state).1.2 with
      | none => exact propagates_cons_ok rfl propagates_nil
      | some e2 => exact propagates_single_fail rfl (Error.wraps_refl _)

theorem GetByID_propagates (B : Builder Q T) (M : model T) (ds : DataServices (DB σ Q T))
    (id : Value) (w : World σ Q T) :
    ∃ evs, (GetByID B M ds id w).2.trace = w.trace ++ evs ∧
      Propagates evs (GetByID B M ds id w).1.2 := by
  cases h : B.ToSQL ds.dialect (.select (M.TableName M.zero) (some ⟨M.IDColumnName M.zero, id⟩)) with
  | error e =>
    refine ⟨[⟨.ToSQL ds.dialect
      (.select (M.TableName M.zero) (some ⟨M.IDColumnName M.zero, id⟩)), some e⟩], ?_, ?_⟩
    · simp [GetByID, callToSQL, h, World.log, errOf]
    · simp only [GetByID, callToSQL, h]
      exact propagates_single_fail rfl (Error.wraps_wrapf _ _)
  | ok q =>
    refine ⟨[⟨.ToSQL ds.dialect
      (.select (M.TableName M.zero) (some ⟨M.IDColumnName M.zero, id⟩)), none⟩,
      ⟨.GetContext q, (ds.db.GetContext q M.zero w.state).1.2⟩], ?_, ?_⟩
    · simp [GetByID, callToSQL, h, World.log, errOf, callGetContext]
    · simp only [GetByID, callToSQL, h, callGetContext, World.log]
      apply propagates_cons_ok rfl
      cases (ds.db.GetContext q M.zero w.state).1.2 with
      | none => exact propagates_cons_ok rfl propagates_nil
      | some e2 => exact propagates_single_fail rfl (Error.wraps_refl _)

theorem propagates_then_GetByID (B : Builder Q T) (M : model T) (ds : DataServices (DB σ Q T))
    (id : Value) (w w4 : World σ Q T) (pre : List (Event Q T))
    (hpre : ∀ ev ∈ pre, ev.err = none) (ht : w4.trace = w.trace ++ pre) :
    ∃ evs, (GetByID B M ds id w4).2.trace = w.trace ++ evs ∧
      Propagates evs (GetByID B M ds id w4).1.2 := by
  obtain ⟨evs, h1, h2⟩ := GetByID_propagates B M ds id w4
  exact ⟨pre ++ evs, by rw [h1, ht, List.append_assoc], propagates_append_ok hpre h2⟩

theorem Create_propagates (B : Builder Q T) (M : model T) (ds : DataServices (DB σ Q T))
    (m : T) (w : World σ Q T) :
    ∃ evs, (Create B M ds m w).2.trace = w.trace ++ evs ∧
      Propagates evs (Create B M ds m w).1.2 := by
  by_cases hd : ds.db.DriverName = "postgres"
  · cases h : B.ToSQL ds.dialect (.insert (M.TableName m) m (some "id")) with
    | error e =>
      refine ⟨[⟨.DriverName, none⟩,
        ⟨.ToSQL ds.dialect (.insert (M.TableName m) m (some "id")), some e⟩], ?_, ?_⟩
      · simp [Create, callDriverName, callToSQL, hd, h, World.log, errOf, Stmt.Returning]
      · simp only [Create, callDriverName, callToSQL, hd, h, Stmt.Returning, if_true]
        exact propagates_cons_ok rfl (propagates_single_fail rfl (Error.wraps_wrapf _ _))
    | ok q =>
      cases hq : (ds.db.QueryRowxContextScan q w.state).1 with
      | error e =>
        refine ⟨[⟨.DriverName, none⟩,
          ⟨.ToSQL ds.dialect (.insert (M.TableName m) m (some "id")), none⟩,
          ⟨.DriverName, none⟩, ⟨.QueryRowxContext q, some e⟩], ?_, ?_⟩
        · simp [Create, callDriverName, callToSQL, hd, h, World.log, errOf, Stmt.Returning,
            callQueryRowxContextScan, hq]
        · simp only [Create, callDriverName, callToSQL, hd, h, Stmt.Returning, if_true,
            callQueryRowxContextScan, hq, World.log]
          exact propagates_cons_ok rfl (propagates_cons_ok rfl (propagates_cons_ok rfl
            (propagates_single_fail rfl (Error.wraps_wrapf _ _))))
      | ok insertedID =>
        simp only [Create, callDriverName, callToSQL, hd, h, Stmt.Returning, if_true,
          callQueryRowxContextScan, hq, World.log]
        exact propagates_then_GetByID B M ds _ w _
          [⟨.DriverName, none⟩,
            ⟨.ToSQL ds.dialect (.insert (M.TableName m) m (some "id")), none⟩,
            ⟨.DriverName, none⟩, ⟨.QueryRowxContext q, none⟩]
          (by simp) (by simp [errOf])
  · cases h : B.ToSQL ds.dialect (.insert (M.TableName m) m none) with
    | error e =>
      refine ⟨[⟨.DriverName, none⟩,
        ⟨.ToSQL ds.dialect (.insert (M.TableName m) m none), some e⟩], ?_, ?_⟩
      · simp [Create, callDriverName, callToSQL, hd, h, World.log, errOf]
      · simp only [Create, callDriverName, callToSQL, hd, h, if_false]
        exact propagates_cons_ok rfl (propagates_single_fail rfl (Error.wraps_wrapf _ _))
    | ok q =>
      cases hq : (ds.db.ExecContext q w.state).1 with
      | error e =>
        refine ⟨[⟨.DriverName, none⟩,
          ⟨.ToSQL ds.dialect (.insert (M.TableName m) m none), none⟩,
          ⟨.DriverName, none⟩, ⟨.ExecContext q, some e⟩], ?_, ?_⟩
        · simp [Create, callDriverName, callToSQL, hd, h, World.log, errOf, callExecContext, hq]
        · simp only [Create, callDriverName, callToSQL, hd, h, if_false, callExecContext, hq,
            World.log]
          exact propagates_cons_ok rfl (propagates_cons_ok rfl (propagates_cons_ok rfl
            (propagates_single_fail rfl (Error.wraps_wrapf _ _))))
      | ok result =>
        cases hl : result.LastInsertId with
        | error e =>
          refine ⟨[⟨.DriverName, none⟩,
            ⟨.ToSQL ds.dialect (.insert (M.TableName m) m none), none⟩,
            ⟨.DriverName, none⟩, ⟨.ExecContext q, none⟩, ⟨.LastInsertId, some e⟩], ?_, ?_⟩
          · simp [Create, callDriverName, callToSQL, hd, h, World.log, errOf, callExecContext,
              hq, callLastInsertId, hl]
          · simp only [Create, callDriverName, callToSQL, hd, h, if_false, callExecContext, hq,
              World.log, callLastInsertId, hl]
            exact propagates_cons_ok rfl (propagates_cons_ok rfl (propagates_cons_ok rfl
              (propagates_cons_ok rfl (propagates_single_fail rfl (Error.wraps_wrapf _ _)))))
        | ok insertedID =>
          simp only [Create, callDriverName, callToSQL, hd, h, if_false, callExecContext, hq,
            World.log, callLastInsertId, hl]
          exact propagates_then_GetByID B M ds _ w _
            [⟨.DriverName, none⟩,
              ⟨.ToSQL ds.dialect (.insert (M.TableName m) m none), none⟩,
              ⟨.DriverName, none⟩, ⟨.ExecContext q, none⟩, ⟨.LastInsertId, none⟩]
            (by simp) (by simp [errOf])

theorem Update_propagates (B : Builder Q T) (M : model T) (ds : DataServices (DB σ Q T))
    (id : Value) (updating : T) (w : World σ Q T) :
    ∃ evs, (Update B M ds id updating w).2.trace = w.trace ++ evs ∧
      Propagates evs (Update B M ds id updating w).1.2 := by
  cases h : B.ToSQL ds.dialect
      (.update (M.TableName updating) (.entity updating) ⟨M.IDColumnName updating, id⟩) with
  | error e =>
    refine ⟨[⟨.ToSQL ds.dialect (.update (M.TableName updating) (.entity updating)
      ⟨M.IDColumnName updating, id⟩), some e⟩], ?_, ?_⟩
    · simp [Update, callToSQL, h, World.log, errOf]
    · simp only [Update, callToSQL, h]
      exact propagates_single_fail rfl (Error.wraps_wrapf _ _)
  | ok q =>
    cases hq : (ds.db.ExecContext q w.state).1 with
    | error e =>
      refine ⟨[⟨.ToSQL ds.dialect (.update (M.TableName updating) (.entity updating)
        ⟨M.IDColumnName updating, id⟩), none⟩, ⟨.ExecContext q, some e⟩], ?_, ?_⟩
      · simp [Update, callToSQL, h, World.log, errOf, callExecContext, hq]
      · simp only [Update, callToSQL, h, callExecContext, hq, World.log]
        exact propagates_cons_ok rfl (propagates_single_fail rfl (Error.wraps_wrapf _ _))
    | ok result =>
      simp only [Update, callToSQL, h, callExecContext, hq, World.log]
      exact propagates_then_GetByID B M ds _ w _
        [⟨.ToSQL ds.dialect (.update (M.TableName updating) (.entity updating)
          ⟨M.IDColumnName updating, id⟩), none⟩, ⟨.ExecContext q, none⟩]
        (by simp) (by simp [errOf])

theorem UpdateColumns_propagates (B : Builder Q T) (M : model T)
    (ds : DataServices (DB σ Q T)) (id : Value) (record : Record) (w : World σ Q T) :
    ∃ evs, (UpdateColumns B M ds id record w).2.trace = w.trace ++ evs ∧
      Propagates evs (UpdateColumns B M ds id record w).1 := by
  cases h : B.ToSQL ds.dialect
      (.update (M.TableName M.zero) (.record record) ⟨M.IDColumnName M.zero, id⟩) with
  | error e =>
    refine ⟨[⟨.ToSQL ds.dialect (.update (M.TableName M.zero) (.record record)
      ⟨M.IDColumnName M.zero, id⟩), some e⟩], ?_, ?_⟩
    · simp [UpdateColumns, callToSQL, h, World.log, errOf]
    · simp only [UpdateColumns, callToSQL, h]
      exact propagates_single_fail rfl (Error.wraps_wrapf _ _)
  | ok q =>
    cases hq : (ds.db.ExecContext q w.state).1 with
    | error e =>
      refine ⟨[⟨.ToSQL ds.dialect (.update (M.TableName M.zero) (.record record)
        ⟨M.IDColumnName M.zero, id⟩), none⟩, ⟨.ExecContext q, some e⟩], ?_, ?_⟩
      · simp [UpdateColumns, callToSQL, h, World.log, errOf, callExecContext, hq]
      · simp only [UpdateColumns, callToSQL, h, callExecContext, hq, World.log]
        exact propagates_cons_ok rfl (propagates_single_fail rfl (Error.wraps_wrapf _ _))
    | ok result =>
      refine ⟨[⟨.ToSQL ds.dialect (.update (M.TableName M.zero) (.record record)
        ⟨M.IDColumnName M.zero, id⟩), none⟩, ⟨.ExecContext q, none⟩], ?_, ?_⟩
      · simp [UpdateColumns, callToSQL, h, World.log, errOf, callExecContext, hq]
      · simp only [UpdateColumns, callToSQL, h, callExecContext, hq, World.log]
        exact propagates_cons_ok rfl (propagates_cons_ok rfl propagates_nil)

theorem Delete_propagates (B : Builder Q T) (M : model T) (ds : DataServices (DB σ Q T))
    (id : Value) (w : World σ Q T) :
    ∃ evs, (Delete B M ds id w).2.trace = w.trace ++ evs ∧
      Propagates evs (Delete B M ds id w).1 := by
  cases h : B.ToSQL ds.dialect (.delete (M.TableName M.zero) ⟨M.IDColumnName M.zero, id⟩) with
  | error e =>
    refine ⟨[⟨.ToSQL ds.dialect
      (.delete (M.TableName M.zero) ⟨M.IDColumnName M.zero, id⟩), some e⟩], ?_, ?_⟩
    · simp [Delete, callToSQL, h, World.log, errOf]
    · simp only [Delete, callToSQL, h]
      exact propagates_single_fail rfl (Error.wraps_wrapf _ _)
  | ok q =>
    cases hq : (ds.db.ExecContext q w.state).1 with
    | error e =>
      refine ⟨[⟨.ToSQL ds.dialect
        (.delete (M.TableName M.zero) ⟨M.IDColumnName M.zero, id⟩), none⟩,
        ⟨.ExecContext q, some e⟩], ?_, ?_⟩
      · simp [Delete, callToSQL, h, World.log, errOf, callExecContext, hq]
      · simp only [Delete, callToSQL, h, callExecContext, hq, World.log]
        exact propagates_cons_ok rfl (propagates_single_fail rfl (Error.wraps_refl _))
    | ok result =>
      refine ⟨[⟨.ToSQL ds.dialect
        (.delete (M.TableName M.zero) ⟨M.IDColumnName M.zero, id⟩), none⟩,
        ⟨.ExecContext q, none⟩], ?_, ?_⟩
      · simp [Delete, callToSQL, h, World.log, errOf, callExecContext, hq]
      · simp only [Delete, callToSQL, h, callExecContext, hq, World.log]
        exact propagates_cons_ok rfl (propagates_cons_ok rfl propagates_nil)

/-- C7: each of the six operations returns a non-nil error exactly when one of
the collaborator calls it made (the builder's `ToSQL` or a call on the database
handle) returned an error; the error returned is the first failing call's
error or wraps it, and no call is made after a failed one. -/
theorem errors_propagated_or_wrapped (B : Builder Q T) (M : model T)
    (ds : DataServices (DB σ Q T)) (id : Value) (m : T) (record : Record)
    (w : World σ Q T) :
    (∃ evs, (GetList B M ds w).2.trace = w.trace ++ evs ∧
      Propagates evs (GetList B M ds w).1.2) ∧
    (∃ evs, (GetByID B M ds id w).2.trace = w.trace ++ evs ∧
      Propagates evs (GetByID B M ds id w).1.2) ∧
    (∃ evs, (Create B M ds m w).2.trace = w.trace ++ evs ∧
      Propagates evs (Create B M ds m w).1.2) ∧
    (∃ evs, (Update B M ds id m w).2.trace = w.trace ++ evs ∧
      Propagates evs (Update B M ds id m w).1.2) ∧
    (∃ evs, (UpdateColumns B M ds id record w).2.trace = w.trace ++ evs ∧
      Propagates evs (UpdateColumns B M ds id record w).1) ∧
    (∃ evs, (Delete B M ds id w).2.trace = w.trace ++ evs ∧
      Propagates evs (Delete B M ds id w).1) :=
  ⟨GetList_propagates B M ds w, GetByID_propagates B M ds id w, Create_propagates B M ds m w,
    Update_propagates B M ds id m w, UpdateColumns_propagates B M ds id record w,
    Delete_propagates B M ds id w⟩

end Propagation

/-! ## Theorems: the operations on the reference database -/

section Reference
variable (eng : Engine) (E : EntityType) (driver : String) (d : DialectWrapper)

theorem refService_eq : refService eng E driver d = ⟨refDB eng E driver, d⟩ := rfl

theorem Engine.keyOf_int (k : Int) : eng.keyOf (.int k) = some k := rfl

theorem scanAll_mem {rows : List Row} {e : Row} (h : e ∈ (scanAll E rows).1) : e ∈ rows := by
  induction rows with
  | nil => simp [scanAll] at h
  | cons r rest ih =>
    unfold scanAll at h
    by_cases hr : E.scansRow r = true
    · rw [if_pos hr] at h
      simp only [List.mem_cons] at h ⊢
      rcases h with h | h
      · exact Or.inl h
      · exact Or.inr (ih h)
    · rw [if_neg hr] at h
      simp at h

theorem scanAll_ok {rows : List Row} (h : (scanAll E rows).2 = none) :
    (scanAll E rows).1 = rows ∧ ∀ r ∈ rows, E.scansRow r = true := by
  induction rows with
  | nil => simp [scanAll]
  | cons r rest ih =>
    unfold scanAll at h ⊢
    by_cases hr : E.scansRow r = true
    · rw [if_pos hr] at h ⊢
      obtain ⟨h1, h2⟩ := ih h
      refine ⟨by simp only [h1], ?_⟩
      intro x hx
      simp only [List.mem_cons] at hx
      rcases hx with hx | hx
      · rw [hx]; exact hr
      · exact h2 x hx
    · rw [if_neg hr] at h
      simp at h

theorem GetList_ref (w : World Store SQL Row) :
    (GetList (refBuilder E) E.model (refService eng E driver d) w).1 =
      scanAll E (w.state E.table) ∧
    (GetList (refBuilder E) E.model (refService eng E driver d) w).2.state = w.state := by
  simp [GetList, callToSQL, refBuilder, refService_eq, callSelectContext, refDB, run,
    EntityType.model, World.log, selectRows]

theorem GetByID_ref (id : Value) (w : World Store SQL Row) :
    (GetByID (refBuilder E) E.model (refService eng E driver d) id w).1 =
      getRow eng E id (w.state E.table) ∧
    (GetByID (refBuilder E) E.model (refService eng E driver d) id w).2.state = w.state := by
  simp only [GetByID, callToSQL, refBuilder, refService_eq, callGetContext, refDB, run,
    EntityType.model, World.log, getRow]
  cases selectRows eng E.idColumn (w.state E.table) (some ⟨E.idColumn, id⟩) with
  | nil => simp
  | cons row rest =>
    by_cases hr : E.scansRow row = true <;> simp [hr]

theorem GetByID_ref_of (id : Value) (w : World Store SQL Row) (rows : List Row)
    (hrows : w.state E.table = rows) :
    (GetByID (refBuilder E) E.model (refService eng E driver d) id w).1 =
      getRow eng E id rows ∧
    (GetByID (refBuilder E) E.model (refService eng E driver d) id w).2.state = w.state := by
  subst hrows
  exact GetByID_ref eng E driver d id w

theorem Row.get_key (K : String) (r : Row) : r.get eng K K = some (.int r.ID) := by
  simp [Row.get]

theorem Row.get_of_ne {K col : String} (h : eng.norm col ≠ eng.norm K) (r : Row) :
    r.get eng K col = lookupCol eng col r.fields := by
  simp [Row.get, h]

theorem Row.satisfies_key (K : String) (id : Value) (r : Row) :
    r.satisfies eng K ⟨K, id⟩ = decide (eng.keyOf id = some r.ID) := by
  simp [Row.satisfies]

theorem lookupCol_upsertCol (f : List (String × Value)) (c : String) (v : Value)
    (col : String) :
    lookupCol eng col (upsertCol eng f c v) =
      if eng.norm c = eng.norm col then some v else lookupCol eng col f := by
  induction f with
  | nil => simp [upsertCol, lookupCol]
  | cons p rest ih =>
    obtain ⟨c1, x⟩ := p
    by_cases h1 : eng.norm c1 = eng.norm c
    · by_cases h : eng.norm c = eng.norm col
      · simp [upsertCol, lookupCol, h1, h]
      · have h2 : ¬ eng.norm c1 = eng.norm col := by rw [h1]; exact h
        simp [upsertCol, lookupCol, h1, h, h2]
    · by_cases h2 : eng.norm c1 = eng.norm col
      · have h3 : ¬ eng.norm c = eng.norm col := by rw [← h2]; exact fun h => h1 h.symm
        have h4 : ¬ eng.norm col = eng.norm c := fun h => h3 h.symm
        simp [upsertCol, lookupCol, h1, h2, h3, h4]
      · simp only [upsertCol, h1, if_false, lookupCol, h2, ih]

theorem lookupCol_setFields (cols f : List (String × Value)) (col : String) :
    lookupCol eng col (setFields eng cols f) =
      (match lookupCol eng col cols with
        | some v => some v
        | none => lookupCol eng col f) := by
  induction cols with
  | nil => rfl
  | cons p rest ih =>
    obtain ⟨c1, x⟩ := p
    have hstep : setFields eng ((c1, x) :: rest) f = upsertCol eng (setFields eng rest f) c1 x :=
      rfl
    rw [hstep, lookupCol_upsertCol]
    by_cases h : eng.norm c1 = eng.norm col
    · simp [lookupCol, h]
    · simp only [h, if_false, lookupCol, ih]

theorem le_maxID {rows : List Row} {r : Row} (h : r ∈ rows) : r.ID ≤ maxID rows := by
  induction rows with
  | nil => simp at h
  | cons p rest ih =>
    simp only [List.mem_cons] at h
    rcases h with h | h
    · subst h; simp [maxID]
    · simp only [maxID]
      exact le_trans (ih h) (le_max_right _ _)

theorem insertKey_fresh {rows : List Row} {key : Option Value} {k : Int}
    (h : insertKey eng rows key = .ok k) : ∀ r ∈ rows, r.ID ≠ k := by
  intro r hr
  have hmax := le_maxID hr
  unfold insertKey at h
  cases key with
  | none =>
    simp only [Except.ok.injEq] at h
    omega
  | some v =>
    simp only at h
    split at h
    · simp only [Except.ok.injEq] at h
      omega
    · split at h
      · cases h
      · split at h
        · simp only [Except.ok.injEq] at h
          omega
        · split at h
          · cases h
          · rename_i hany
            simp only [Except.ok.injEq] at h
            subst h
            intro heq
            apply hany
            simp only [List.any_eq_true, decide_eq_true_eq]
            exact ⟨r, hr, heq⟩

theorem Delete_ref (id : Value) (w : World Store SQL Row) :
    (Delete (refBuilder E) E.model (refService eng E driver d) id w).1 = none ∧
    (Delete (refBuilder E) E.model (refService eng E driver d) id w).2.state =
      Function.update w.state E.table
        ((w.state E.table).filter
          (fun r => !r.satisfies eng E.idColumn ⟨E.idColumn, id⟩)) := by
  simp [Delete, callToSQL, refBuilder, refService_eq, callExecContext, refDB, run,
    EntityType.model, World.log]

theorem DeleteEach_ref (ids : List Value) (w : World Store SQL Row) :
    (DeleteEach (refBuilder E) E.model (refService eng E driver d) ids w).1 = none ∧
    (DeleteEach (refBuilder E) E.model (refService eng E driver d) ids w).2.state E.table =
      (w.state E.table).filter
        (fun r => ids.all (fun id => !decide (eng.keyOf id = some r.ID))) := by
  induction ids generalizing w with
  | nil => simp [DeleteEach]
  | cons id ids ih =>
    obtain ⟨h1, h2⟩ := Delete_ref eng E driver d id w
    have hsplit : Delete (refBuilder E) E.model (refService eng E driver d) id w =
        (none, (Delete (refBuilder E) E.model (refService eng E driver d) id w).2) :=
      Prod.ext h1 rfl
    simp only [DeleteEach]
    rw [hsplit]
    simp only
    obtain ⟨h3, h4⟩ := ih (Delete (refBuilder E) E.model (refService eng E driver d) id w).2
    refine ⟨h3, ?_⟩
    rw [h4, h2, Function.update_same, List.filter_filter]
    apply List.filter_congr
    intro r _
    simp only [Row.satisfies_key, List.all_cons, Bool.and_comm]

theorem prepare_lookup {K t : String} {set : Record} {kv : Option Value}
    {cols : List (String × Value)} (h : prepare eng K t set = .ok (kv, cols))
    (hnodup : (set.map (fun e => eng.norm e.1)).Nodup) :
    ∀ name v, (name, v) ∈ set → eng.norm name ≠ eng.norm K →
      ∃ v1, eng.store t name v = .ok v1 ∧ lookupCol eng name cols = some v1 := by
  induction set generalizing kv cols with
  | nil => intro name v hmem; simp at hmem
  | cons p rest ih =>
    obtain ⟨n0, v0⟩ := p
    simp only [List.map_cons, List.nodup_cons] at hnodup
    obtain ⟨hnot, hnodup⟩ := hnodup
    intro name v hmem hne
    unfold prepare at h
    cases hrest : prepare eng K t rest with
    | error e => rw [hrest] at h; simp at h
    | ok r =>
      obtain ⟨key0, cols0⟩ := r
      rw [hrest] at h
      simp only at h
      by_cases hk : eng.norm n0 = eng.norm K
      · rw [if_pos hk] at h
        simp only [Except.ok.injEq, Prod.mk.injEq] at h
        obtain ⟨_, hcols⟩ := h
        subst hcols
        simp only [List.mem_cons, Prod.mk.injEq] at hmem
        rcases hmem with hmem | hmem
        · exact absurd (hmem.1 ▸ hk) hne
        · exact ih hrest hnodup name v hmem hne
      · rw [if_neg hk] at h
        cases hst : eng.store t n0 v0 with
        | error e => rw [hst] at h; simp at h
        | ok v1 =>
          rw [hst] at h
          simp only [Except.ok.injEq, Prod.mk.injEq] at h
          obtain ⟨_, hcols⟩ := h
          subst hcols
          simp only [List.mem_cons, Prod.mk.injEq] at hmem
          rcases hmem with hmem | hmem
          · obtain ⟨h1, h2⟩ := hmem
            subst h1; subst h2
            exact ⟨v1, hst, by simp [lookupCol]⟩
          · obtain ⟨v2, hs2, hl2⟩ := ih hrest hnodup name v hmem hne
            refine ⟨v2, hs2, ?_⟩
            have hdiff : ¬ eng.norm n0 = eng.norm name := by
              intro heq
              apply hnot
              simp only [List.mem_map]
              exact ⟨(name, v), hmem, heq.symm⟩
            simp only [lookupCol, hdiff, if_false, hl2]

theorem prepare_lookup_none {K t : String} {set : Record} {kv : Option Value}
    {cols : List (String × Value)} (h : prepare eng K t set = .ok (kv, cols)) (col : String)
    (hcol : ∀ e ∈ set, eng.norm e.1 ≠ eng.norm col) : lookupCol eng col cols = none := by
  induction set generalizing kv cols with
  | nil =>
    simp only [prepare, Except.ok.injEq, Prod.mk.injEq] at h
    rw [← h.2]; rfl
  | cons p rest ih =>
    obtain ⟨n0, v0⟩ := p
    unfold prepare at h
    cases hrest : prepare eng K t rest with
    | error e => rw [hrest] at h; simp at h
    | ok r =>
      obtain ⟨key0, cols0⟩ := r
      rw [hrest] at h
      simp only at h
      have hrestcol : ∀ e ∈ rest, eng.norm e.1 ≠ eng.norm col :=
        fun e he => hcol e (List.mem_cons_of_mem _ he)
      by_cases hk : eng.norm n0 = eng.norm K
      · rw [if_pos hk] at h
        simp only [Except.ok.injEq, Prod.mk.injEq] at h
        rw [← h.2]
        exact ih hrest hrestcol
      · rw [if_neg hk] at h
        cases hst : eng.store t n0 v0 with
        | error e => rw [hst] at h; simp at h
        | ok v1 =>
          rw [hst] at h
          simp only [Except.ok.injEq, Prod.mk.injEq] at h
          rw [← h.2]
          have h0 : ¬ eng.norm n0 = eng.norm col := hcol (n0, v0) (List.mem_cons_self _ _)
          simp only [lookupCol, h0, if_false]
          exact ih hrest hrestcol

theorem prepare_key {K t : String} {set : Record} {kv : Option Value}
    {cols : List (String × Value)} (h : prepare eng K t set = .ok (kv, cols))
    (hnodup : (set.map (fun e => eng.norm e.1)).Nodup) :
    (∀ name v, (name, v) ∈ set → eng.norm name = eng.norm K → kv = some v) ∧
    ((∀ e ∈ set, eng.norm e.1 ≠ eng.norm K) → kv = none) := by
  induction set generalizing kv cols with
  | nil =>
    simp only [prepare, Except.ok.injEq, Prod.mk.injEq] at h
    refine ⟨?_, fun _ => h.1.symm⟩
    intro name v hmem; simp at hmem
  | cons p rest ih =>
    obtain ⟨n0, v0⟩ := p
    simp only [List.map_cons, List.nodup_cons] at hnodup
    obtain ⟨hnot, hnodup⟩ := hnodup
    unfold prepare at h
    cases hrest : prepare eng K t rest with
    | error e => rw [hrest] at h; simp at h
    | ok r =>
      obtain ⟨key0, cols0⟩ := r
      rw [hrest] at h
      simp only at h
      obtain ⟨ih1, ih2⟩ := ih hrest hnodup
      by_cases hk : eng.norm n0 = eng.norm K
      · rw [if_pos hk] at h
        simp only [Except.ok.injEq, Prod.mk.injEq] at h
        refine ⟨?_, ?_⟩
        · intro name v hmem hname
          simp only [List.mem_cons, Prod.mk.injEq] at hmem
          rcases hmem with hmem | hmem
          · rw [← h.1, hmem.2]
          · exfalso
            apply hnot
            simp only [List.mem_map]
            exact ⟨(name, v), hmem, by rw [hk]; exact hname⟩
        · intro hall
          exact absurd hk (hall (n0, v0) (List.mem_cons_self _ _))
      · rw [if_neg hk] at h
        cases hst : eng.store t n0 v0 with
        | error e => rw [hst] at h; simp at h
        | ok v1 =>
          rw [hst] at h
          simp only [Except.ok.injEq, Prod.mk.injEq] at h
          rw [← h.1]
          refine ⟨?_, ?_⟩
          · intro name v hmem hname
            simp only [List.mem_cons, Prod.mk.injEq] at hmem
            rcases hmem with hmem | hmem
            · exact absurd (hmem.1 ▸ hname) hk
            · exact ih1 name v hmem hname
          · intro hall
            exact ih2 (fun e he => hall e (List.mem_cons_of_mem _ he))

/-- What `ExecContext` does with an update on the reference database. -/
theorem ExecContext_update (t : String) (set : Record) (c : Ex) (s : Store) :
    (refDB eng E driver).ExecContext (.update t set c) s =
      (match prepare eng E.idColumn t set with
        | .error e => (.error e, s)
        | .ok (kv, cols) =>
          match setKey eng kv with
          | .error e => (.error e, s)
          | .ok key =>
            (.ok ⟨.ok 0⟩, Function.update s t
              ((s t).map (fun r =>
                if r.satisfies eng E.idColumn c then r.assign eng t cols key else r)))) := by
  simp only [refDB, run]
  cases prepare eng E.idColumn t set with
  | error e => rfl
  | ok r =>
    obtain ⟨kv, cols⟩ := r
    simp only
    cases setKey eng kv <;> rfl

/-- An `Update` that succeeds on the reference database, for an entity that
reports the table and the identifier column of the zero entity, executed its
update statement and returns what `GetByID` finds after it. -/
theorem Update_ref_ok (id : Value) (u : Row) (w : World Store SQL Row)
    (hut : E.tableOf u = E.table) (hui : E.idColumnOf u = E.idColumn)
    (h : (Update (refBuilder E) E.model (refService eng E driver d) id u w).1.2 = none) :
    ∃ kv cols key, prepare eng E.idColumn E.table (E.updateColumns u) = .ok (kv, cols) ∧
      setKey eng kv = .ok key ∧
      (Update (refBuilder E) E.model (refService eng E driver d) id u w).1 =
        getRow eng E id ((w.state E.table).map (fun r =>
          if r.satisfies eng E.idColumn ⟨E.idColumn, id⟩ then r.assign eng E.table cols key
          else r)) ∧
      (Update (refBuilder E) E.model (refService eng E driver d) id u w).2.state =
        Function.update w.state E.table ((w.state E.table).map (fun r =>
          if r.satisfies eng E.idColumn ⟨E.idColumn, id⟩ then r.assign eng E.table cols key
          else r)) := by
  simp only [Update, callToSQL, refBuilder, callExecContext, World.log] at h ⊢
  have hexec := ExecContext_update eng E driver E.table (E.updateColumns u)
    ⟨E.idColumn, id⟩ w.state
  have hdb : (refService eng E driver d).db = refDB eng E driver := rfl
  simp only [hdb, EntityType.model] at h ⊢
  rw [hut, hui, hexec] at h ⊢
  cases hp : prepare eng E.idColumn E.table (E.updateColumns u) with
  | error e => rw [hp] at h; simp at h
  | ok r =>
    obtain ⟨kv, cols⟩ := r
    rw [hp] at h
    simp only at h ⊢
    cases hk : setKey eng kv with
    | error e => rw [hk] at h; simp at h
    | ok key =>
      refine ⟨kv, cols, key, rfl, hk, ?_⟩
      exact GetByID_ref_of eng E driver d id _ _ (by simp)

/-- An `UpdateColumns` that succeeds on the reference database executed its
update statement. -/
theorem UpdateColumns_ref_ok (id : Value) (r : Record) (w : World Store SQL Row)
    (h : (UpdateColumns (refBuilder E) E.model (refService eng E driver d) id r w).1 = none) :
    ∃ kv cols key, prepare eng E.idColumn E.table r = .ok (kv, cols) ∧
      setKey eng kv = .ok key ∧
      (UpdateColumns (refBuilder E) E.model (refService eng E driver d) id r w).2.state =
        Function.update w.state E.table ((w.state E.table).map (fun x =>
          if x.satisfies eng E.idColumn ⟨E.idColumn, id⟩ then x.assign eng E.table cols key
          else x)) := by
  simp only [UpdateColumns, callToSQL, refBuilder, callExecContext, World.log] at h ⊢
  have hexec := ExecContext_update eng E driver E.table r ⟨E.idColumn, id⟩ w.state
  have hdb : (refService eng E driver d).db = refDB eng E driver := rfl
  simp only [hdb, EntityType.model] at h ⊢
  rw [hexec] at h ⊢
  cases hp : prepare eng E.idColumn E.table r with
  | error e => rw [hp] at h; simp at h
  | ok p =>
    obtain ⟨kv, cols⟩ := p
    rw [hp] at h
    simp only at h ⊢
    cases hk : setKey eng kv with
    | error e => rw [hk] at h; simp at h
    | ok key => exact ⟨kv, cols, key, rfl, hk, rfl⟩

/-- A `GetByID` that succeeds on a table returns the first row whose key the
identifier denotes, and that row can be scanned. -/
theorem getRow_ok {id : Value} {rows : List Row} {c : Row}
    (h : getRow eng E id rows = (c, none)) :
    ∃ rest, selectRows eng E.idColumn rows (some ⟨E.idColumn, id⟩) = c :: rest ∧
      E.scansRow c = true ∧ c ∈ rows ∧ eng.keyOf id = some c.ID := by
  unfold getRow at h
  cases hsel : selectRows eng E.idColumn rows (some ⟨E.idColumn, id⟩) with
  | nil => rw [hsel] at h; simp [ErrNoRows] at h
  | cons c0 rest =>
    rw [hsel] at h
    simp only at h
    by_cases hs : E.scansRow c0 = true
    · rw [if_pos hs] at h
      simp only [Prod.mk.injEq, and_true] at h
      subst h
      have hmem : c0 ∈ selectRows eng E.idColumn rows (some ⟨E.idColumn, id⟩) := by
        rw [hsel]; exact List.mem_cons_self _ _
      simp only [selectRows, List.mem_filter, Row.satisfies_key, decide_eq_true_eq] at hmem
      exact ⟨rest, rfl, hs, hmem.1, hmem.2⟩
    · rw [if_neg hs] at h
      simp [ErrScan] at h

theorem getRow_of_select {id : Value} {rows : List Row} {c : Row} {rest : List Row}
    (hsel : selectRows eng E.idColumn rows (some ⟨E.idColumn, id⟩) = c :: rest)
    (hs : E.scansRow c = true) : getRow eng E id rows = (c, none) := by
  unfold getRow
  rw [hsel]
  simp [hs]

/-- C2, amended: on the reference database, for an entity `u` that reports the
table and the identifier column of the zero entity and whose written columns
are distinct to the database, when `Update(id, u)` succeeds the entity it
returns has the identifier `id` denotes, holds in every column the builder
writes for `u` (the identifier column apart) the value the database stored for
the value written, and is what `GetByID(id)` returns right afterwards. -/
theorem Update_then_GetByID (id : Value) (u : Row) (w : World Store SQL Row)
    (hut : E.tableOf u = E.table) (hui : E.idColumnOf u = E.idColumn)
    (hdistinct : ((E.updateColumns u).map (fun c => eng.norm c.1)).Nodup)
    (h : (Update (refBuilder E) E.model (refService eng E driver d) id u w).1.2 = none) :
    eng.keyOf id =
      some (Update (refBuilder E) E.model (refService eng E driver d) id u w).1.1.ID ∧
    (∀ name v, (name, v) ∈ E.updateColumns u → eng.norm name ≠ eng.norm E.idColumn →
      ∃ v1, eng.store E.table name v = .ok v1 ∧
        (Update (refBuilder E) E.model (refService eng E driver d) id u w).1.1.get
          eng E.idColumn name = some v1) ∧
    (GetByID (refBuilder E) E.model (refService eng E driver d) id
        (Update (refBuilder E) E.model (refService eng E driver d) id u w).2).1 =
      ((Update (refBuilder E) E.model (refService eng E driver d) id u w).1.1, none) := by
  obtain ⟨kv, cols, key, hp, _, h1, h2⟩ := Update_ref_ok eng E driver d id u w hut hui h
  have hres : (Update (refBuilder E) E.model (refService eng E driver d) id u w).1 =
      ((Update (refBuilder E) E.model (refService eng E driver d) id u w).1.1, none) :=
    Prod.ext rfl h
  have h3 := (GetByID_ref_of eng E driver d id
    (Update (refBuilder E) E.model (refService eng E driver d) id u w).2 _
    (by rw [h2, Function.update_same])).1
  rw [h3, ← h1]
  refine ⟨?_, ?_, hres⟩
  · rw [h1] at hres
    obtain ⟨_, _, _, _, hkey⟩ := getRow_ok eng E hres
    rw [h1]
    exact hkey
  · intro name v hmem hne
    rw [h1] at hres
    obtain ⟨_, _, _, hin, hkey⟩ := getRow_ok eng E hres
    obtain ⟨v1, hs1, hl1⟩ := prepare_lookup eng hp hdistinct name v hmem hne
    refine ⟨v1, hs1, ?_⟩
    rw [h1]
    generalize (getRow eng E id ((w.state E.table).map (fun r =>
      if r.satisfies eng E.idColumn ⟨E.idColumn, id⟩ then r.assign eng E.table cols key
      else r))).1 = c at hin hkey ⊢
    simp only [List.mem_map] at hin
    obtain ⟨r, _, hr⟩ := hin
    by_cases hrs : r.satisfies eng E.idColumn ⟨E.idColumn, id⟩ = true
    · rw [if_pos hrs] at hr
      rw [← hr, Row.get_of_ne eng hne]
      simp only [Row.assign]
      rw [lookupCol_setFields, hl1]
    · rw [if_neg hrs] at hr
      rw [hr, Row.satisfies_key, decide_eq_true_eq] at hrs
      exact absurd hkey hrs

/-- C3: on the reference database, after a `Delete(id)` that succeeded `GetList`
returns no entity whose identifier is `id`, nor one whose key `id` denotes; and
after a `GetList` that succeeded, deleting every identifier it returned (each
`Delete` succeeding) leaves `GetList` returning the empty list and no error. -/
theorem Delete_then_GetList (id : Value) (w : World Store SQL Row) :
    ((Delete (refBuilder E) E.model (refService eng E driver d) id w).1 = none →
      ∀ e ∈ (GetList (refBuilder E) E.model (refService eng E driver d)
          (Delete (refBuilder E) E.model (refService eng E driver d) id w).2).1.1,
        e.get eng E.idColumn E.idColumn ≠ some id ∧ eng.keyOf id ≠ some e.ID) ∧
    ((GetList (refBuilder E) E.model (refService eng E driver d) w).1.2 = none →
      (DeleteEach (refBuilder E) E.model (refService eng E driver d)
        ((GetList (refBuilder E) E.model (refService eng E driver d) w).1.1.map
          (fun e => Value.int e.ID))
        (GetList (refBuilder E) E.model (refService eng E driver d) w).2).1 = none →
      (GetList (refBuilder E) E.model (refService eng E driver d)
        (DeleteEach (refBuilder E) E.model (refService eng E driver d)
          ((GetList (refBuilder E) E.model (refService eng E driver d) w).1.1.map
            (fun e => Value.int e.ID))
          (GetList (refBuilder E) E.model (refService eng E driver d) w).2).2).1 =
        ([], none)) := by
  constructor
  · intro _ e he
    rw [(GetList_ref eng E driver d _).1, (Delete_ref eng E driver d id w).2] at he
    have he2 := scanAll_mem E he
    simp only [Function.update_same, List.mem_filter, Row.satisfies_key,
      Bool.not_eq_true', decide_eq_false_iff_not] at he2
    refine ⟨?_, he2.2⟩
    rw [Row.get_key]
    intro heq
    apply he2.2
    have : Value.int e.ID = id := by simpa using heq
    rw [← this]
    rfl
  · intro hl _
    rw [(GetList_ref eng E driver d w).1] at hl
    obtain ⟨hall, _⟩ := scanAll_ok E hl
    rw [(GetList_ref eng E driver d _).1, (DeleteEach_ref eng E driver d _ _).2,
      (GetList_ref eng E driver d w).2, (GetList_ref eng E driver d w).1, hall]
    have hnil : (w.state E.table).filter (fun r =>
        ((w.state E.table).map (fun e => Value.int e.ID)).all
          (fun id => !decide (eng.keyOf id = some r.ID))) = [] := by
      rw [List.filter_eq_nil_iff]
      intro r hr
      simp only [List.all_eq_true, Bool.not_eq_true', decide_eq_false_iff_not, List.mem_map,
        forall_exists_index, and_imp, forall_apply_eq_imp_iff₂, not_forall]
      exact ⟨r, hr, fun hne => hne rfl⟩
    rw [hnil]
    rfl

theorem Create_ref_other (hd : driver ≠ "postgres") (m : Row) (w : World Store SQL Row) :
    (Create (refBuilder E) E.model (refService eng E driver d) m w).1 =
      (match execInsert eng E.idColumn w.state (E.tableOf m) (E.insertColumns m) with
        | (.error e, _) => (m, some (.wrapf "fail to execute insert sql script" e))
        | (.ok row, s1) => getRow eng E (.int row.ID) (s1 E.table)) ∧
    (Create (refBuilder E) E.model (refService eng E driver d) m w).2.state =
      (execInsert eng E.idColumn w.state (E.tableOf m) (E.insertColumns m)).2 := by
  have hdrv : (refService eng E driver d).db.DriverName = driver := rfl
  simp only [Create, callDriverName, callToSQL, refBuilder, World.log, hdrv, hd, if_false,
    callExecContext, callLastInsertId]
  have hexec : (refService eng E driver d).db.ExecContext
      (SQL.insert (E.model.TableName m) (E.insertColumns m) none) w.state =
      (match execInsert eng E.idColumn w.state (E.tableOf m) (E.insertColumns m) with
        | (.error e, s1) => (.error e, s1)
        | (.ok row, s1) => (.ok ⟨.ok row.ID⟩, s1)) := by
    simp only [refService_eq, refDB, run, EntityType.model]
    rcases hx : execInsert eng E.idColumn w.state (E.tableOf m) (E.insertColumns m) with
      ⟨r, s1⟩
    cases r <;> rfl
  rw [hexec]
  rcases hx : execInsert eng E.idColumn w.state (E.tableOf m) (E.insertColumns m) with
    ⟨r, s1⟩
  cases r with
  | error e => exact ⟨rfl, rfl⟩
  | ok row => exact GetByID_ref_of eng E driver d _ _ _ rfl

theorem Create_ref_postgres (hd : driver = "postgres") (m : Row) (w : World Store SQL Row) :
    (Create (refBuilder E) E.model (refService eng E driver d) m w).1 =
      (match runScan eng E.idColumn (.insert (E.tableOf m) (E.insertColumns m) (some "id"))
          w.state with
        | (.error e, _) => (m, some (.wrapf "fail to execute insert sql script" e))
        | (.ok v, s1) => getRow eng E (.int v) (s1 E.table)) ∧
    (Create (refBuilder E) E.model (refService eng E driver d) m w).2.state =
      (runScan eng E.idColumn (.insert (E.tableOf m) (E.insertColumns m) (some "id"))
        w.state).2 := by
  subst hd
  have hdrv : (refService eng E "postgres" d).db.DriverName = "postgres" := rfl
  simp only [Create, callDriverName, callToSQL, refBuilder, World.log, hdrv, if_true,
    callQueryRowxContextScan, Stmt.Returning]
  have hexec : (refService eng E "postgres" d).db.QueryRowxContextScan
      (SQL.insert (E.model.TableName m) (E.insertColumns m) (some "id")) w.state =
      runScan eng E.idColumn (.insert (E.tableOf m) (E.insertColumns m) (some "id"))
        w.state :=
    rfl
  rw [hexec]
  rcases hx : runScan eng E.idColumn (.insert (E.tableOf m) (E.insertColumns m) (some "id"))
    w.state with ⟨r, s1⟩
  cases r with
  | error e => exact ⟨rfl, rfl⟩
  | ok v => exact GetByID_ref_of eng E "postgres" d _ _ _ rfl

theorem execInsert_ok {K : String} {s : Store} {t : String} {values : Record}
    {key : Option Value} {cols : List (String × Value)} {k : Int}
    (hp : prepare eng K t values = .ok (key, cols)) (hk : insertKey eng (s t) key = .ok k) :
    execInsert eng K s t values =
      (.ok ⟨k, cols⟩, Function.update s t (s t ++ [⟨k, cols⟩])) := by
  simp [execInsert, hp, hk]

theorem execInsert_cases (K : String) (s : Store) (t : String) (values : Record) :
    (∃ e, execInsert eng K s t values = (.error e, s)) ∨
    (∃ key cols k, prepare eng K t values = .ok (key, cols) ∧
      insertKey eng (s t) key = .ok k ∧
      execInsert eng K s t values =
        (.ok ⟨k, cols⟩, Function.update s t (s t ++ [⟨k, cols⟩]))) := by
  cases hp : prepare eng K t values with
  | error e => exact Or.inl ⟨e, by simp [execInsert, hp]⟩
  | ok r =>
    obtain ⟨key, cols⟩ := r
    cases hk : insertKey eng (s t) key with
    | error e => exact Or.inl ⟨e, by simp [execInsert, hp, hk]⟩
    | ok k => exact Or.inr ⟨key, cols, k, rfl, hk, execInsert_ok eng hp hk⟩

theorem selectRows_append_new {rows : List Row} {row : Row}
    (hfresh : ∀ r ∈ rows, r.ID ≠ row.ID) :
    selectRows eng E.idColumn (rows ++ [row]) (some ⟨E.idColumn, .int row.ID⟩) = [row] := by
  have h1 : rows.filter (Row.satisfies eng E.idColumn ⟨E.idColumn, .int row.ID⟩) = [] := by
    rw [List.filter_eq_nil_iff]
    intro r hr
    simp only [Row.satisfies_key, Engine.keyOf_int, Option.some.injEq, decide_eq_true_eq]
    exact fun h => hfresh r hr h.symm
  have h2 : [row].filter (Row.satisfies eng E.idColumn ⟨E.idColumn, .int row.ID⟩) = [row] := by
    simp [Row.satisfies_key, Engine.keyOf_int]
  simp only [selectRows, List.filter_append, h1, h2, List.nil_append]

theorem getRow_append_new {rows : List Row} {row : Row}
    (hfresh : ∀ r ∈ rows, r.ID ≠ row.ID) (hs : E.scansRow row = true) :
    getRow eng E (.int row.ID) (rows ++ [row]) = (row, none) :=
  getRow_of_select eng E (selectRows_append_new eng E hfresh) hs

/-- A `Create` that succeeded on the reference database, of an entity that
reports the table of the zero entity, stored one new row, under a key no row of
the table had; unless the handle is a postgres handle and the identifier column
is not the column `id`, the entity returned is that row. -/
theorem Create_ref_ok (m : Row) (w : World Store SQL Row) (ht : E.tableOf m = E.table)
    (h : (Create (refBuilder E) E.model (refService eng E driver d) m w).1.2 = none) :
    ∃ key cols k, prepare eng E.idColumn E.table (E.insertColumns m) = .ok (key, cols) ∧
      insertKey eng (w.state E.table) key = .ok k ∧
      (Create (refBuilder E) E.model (refService eng E driver d) m w).2.state =
        Function.update w.state E.table (w.state E.table ++ [⟨k, cols⟩]) ∧
      (driver ≠ "postgres" ∨ eng.norm "id" = eng.norm E.idColumn →
        (Create (refBuilder E) E.model (refService eng E driver d) m w).1.1 = ⟨k, cols⟩) := by
  rcases execInsert_cases eng E.idColumn w.state E.table (E.insertColumns m) with
    ⟨e, hx⟩ | ⟨key, cols, k, hp, hk, hx⟩
  · exfalso
    by_cases hd : driver = "postgres"
    · rw [(Create_ref_postgres eng E driver d hd m w).1, ht] at h
      simp [runScan, hx] at h
    · rw [(Create_ref_other eng E driver d hd m w).1, ht] at h
      simp [hx] at h
  · refine ⟨key, cols, k, hp, hk, ?_⟩
    have hsel := @selectRows_append_new eng E (w.state E.table) ⟨k, cols⟩
      (insertKey_fresh eng hk)
    by_cases hd : driver = "postgres"
    · obtain ⟨h1, h2⟩ := Create_ref_postgres eng E driver d hd m w
      rw [ht] at h1 h2
      rw [h1] at h
      rw [h1, h2]
      simp only [runScan, hx] at h ⊢
      cases hcol : Row.get eng E.idColumn ⟨k, cols⟩ "id" with
      | none => rw [hcol] at h; simp at h
      | some v =>
        cases v with
        | null => rw [hcol] at h; simp at h
        | text t => rw [hcol] at h; simp at h
        | int v =>
          rw [hcol] at h
          simp only at h ⊢
          refine ⟨trivial, ?_⟩
          intro hor
          rcases hor with hor | hor
          · exact absurd hd hor
          · have hv : v = k := by
              simp only [Row.get, hor, if_true, Option.some.injEq, Value.int.injEq] at hcol
              exact hcol.symm
            subst hv
            simp only [Function.update_same] at h ⊢
            unfold getRow at h ⊢
            simp only at hsel
            rw [hsel] at h ⊢
            simp only at h ⊢
            by_cases hs : E.scansRow ⟨v, cols⟩ = true
            · simp [hs]
            · simp [hs] at h
    · obtain ⟨h1, h2⟩ := Create_ref_other eng E driver d hd m w
      rw [ht] at h1 h2
      rw [h1] at h
      rw [h1, h2]
      simp only [hx] at h ⊢
      refine ⟨trivial, ?_⟩
      intro _
      simp only [Function.update_same] at h ⊢
      unfold getRow at h ⊢
      simp only at hsel
      rw [hsel] at h ⊢
      simp only at h ⊢
      by_cases hs : E.scansRow ⟨k, cols⟩ = true
      · simp [hs]
      · simp [hs] at h

/-- The create round trip where the hard-coded `id` is not in the way (the
handle is not a postgres handle, or the identifier column is the column `id`):
when `Create(m)` succeeds, for an entity that reports the table of the zero
entity and whose written columns are distinct to the database, the entity
returned holds in every column the builder writes for `m` (the identifier
column apart) the value the database stored for the value written, and
`GetByID` of its identifier returns it. -/
theorem Create_then_GetByID (hd : driver ≠ "postgres" ∨ eng.norm "id" = eng.norm E.idColumn)
    (m : Row) (w : World Store SQL Row) (ht : E.tableOf m = E.table)
    (hdistinct : ((E.insertColumns m).map (fun c => eng.norm c.1)).Nodup)
    (h : (Create (refBuilder E) E.model (refService eng E driver d) m w).1.2 = none) :
    (∀ name v, (name, v) ∈ E.insertColumns m → eng.norm name ≠ eng.norm E.idColumn →
      ∃ v1, eng.store E.table name v = .ok v1 ∧
        (Create (refBuilder E) E.model (refService eng E driver d) m w).1.1.get
          eng E.idColumn name = some v1) ∧
    (GetByID (refBuilder E) E.model (refService eng E driver d)
        (.int (Create (refBuilder E) E.model (refService eng E driver d) m w).1.1.ID)
        (Create (refBuilder E) E.model (refService eng E driver d) m w).2).1 =
      ((Create (refBuilder E) E.model (refService eng E driver d) m w).1.1, none) := by
  obtain ⟨key, cols, k, hp, hk, hst, hc⟩ := Create_ref_ok eng E driver d m w ht h
  have hres : (Create (refBuilder E) E.model (refService eng E driver d) m w).1 =
      (⟨k, cols⟩, none) := Prod.ext (hc hd) h
  refine ⟨?_, ?_⟩
  · intro name v hmem hne
    obtain ⟨v1, hs1, hl1⟩ := prepare_lookup eng hp hdistinct name v hmem hne
    refine ⟨v1, hs1, ?_⟩
    rw [hc hd, Row.get_of_ne eng hne]
    exact hl1
  · rw [(GetByID_ref_of eng E driver d _ _ _ (by rw [hst, Function.update_same])).1, hc hd]
    -- the stored row can be scanned, since `Create` returned it
    have hsel := @selectRows_append_new eng E (w.state E.table) ⟨k, cols⟩
      (insertKey_fresh eng hk)
    by_cases hs : E.scansRow ⟨k, cols⟩ = true
    · exact getRow_of_select eng E hsel hs
    · exfalso
      by_cases hdp : driver = "postgres"
      · obtain ⟨h1, _⟩ := Create_ref_postgres eng E driver d hdp m w
        rw [h1, ht] at h
        have hx := @execInsert_ok eng E.idColumn w.state E.table _ _ _ _ hp hk
        simp only [runScan, hx] at h
        rcases hd with hd | hd
        · exact hd hdp
        · have hcol : Row.get eng E.idColumn ⟨k, cols⟩ "id" = some (.int k) := by
            simp [Row.get, hd]
          rw [hcol] at h
          simp only [Function.update_same] at h
          unfold getRow at h
          simp only at hsel
          rw [hsel] at h
          simp [hs] at h
      · obtain ⟨h1, _⟩ := Create_ref_other eng E driver d hdp m w
        rw [h1, ht] at h
        have hx := @execInsert_ok eng E.idColumn w.state E.table _ _ _ _ hp hk
        simp only [hx, Function.update_same] at h
        unfold getRow at h
        simp only at hsel
        rw [hsel] at h
        simp [hs] at h

/-- C5, amended: on the reference database a `GetList` that succeeds returns the
rows of the entity's table, one entity per row and in the table's order; so
after two successful `Create`s, on an empty table, of entities that report the
table of the zero entity, it returns exactly two entities, with distinct
identifiers, each the entity `GetByID` returns for its identifier. -/
theorem GetList_whole_table (w : World Store SQL Row) :
    (∀ l w1, GetList (refBuilder E) E.model (refService eng E driver d) w = ((l, none), w1) →
      l = w.state E.table) ∧
    (∀ m1 m2 c1 c2 w1 w2 l w3, w.state E.table = [] →
      E.tableOf m1 = E.table → E.tableOf m2 = E.table →
      Create (refBuilder E) E.model (refService eng E driver d) m1 w = ((c1, none), w1) →
      Create (refBuilder E) E.model (refService eng E driver d) m2 w1 = ((c2, none), w2) →
      GetList (refBuilder E) E.model (refService eng E driver d) w2 = ((l, none), w3) →
      ∃ x y, l = [x, y] ∧ x.ID ≠ y.ID ∧
        (GetByID (refBuilder E) E.model (refService eng E driver d) (.int x.ID) w3).1 =
          (x, none) ∧
        (GetByID (refBuilder E) E.model (refService eng E driver d) (.int y.ID) w3).1 =
          (y, none)) := by
  constructor
  · intro l w1 h
    have h1 := (GetList_ref eng E driver d w).1
    rw [h] at h1
    have h2 : (scanAll E (w.state E.table)).2 = none := by rw [← h1]
    rw [← (scanAll_ok E h2).1, ← h1]
  · intro m1 m2 c1 c2 w1 w2 l w3 hempty ht1 ht2 hc1 hc2 hl
    obtain ⟨_, cols1, k1, _, _, hs1, _⟩ :=
      Create_ref_ok eng E driver d m1 w ht1 (by rw [hc1])
    obtain ⟨_, cols2, k2, _, hk2, hs2, _⟩ :=
      Create_ref_ok eng E driver d m2 w1 ht2 (by rw [hc2])
    rw [hc1] at hs1
    rw [hc2] at hs2
    simp only at hs1 hs2
    have hr1 : w1.state E.table = [⟨k1, cols1⟩] := by
      rw [hs1, Function.update_same, hempty, List.nil_append]
    have hr2 : w2.state E.table = [⟨k1, cols1⟩, ⟨k2, cols2⟩] := by
      rw [hs2, Function.update_same, hr1]
      rfl
    have hne : k1 ≠ k2 := by
      have := insertKey_fresh eng hk2 ⟨k1, cols1⟩ (by rw [hr1]; exact List.mem_cons_self _ _)
      exact this
    have hl1 := GetList_ref eng E driver d w2
    rw [hl] at hl1
    have hscan : (scanAll E (w2.state E.table)).2 = none := by rw [← hl1.1]
    obtain ⟨hall, hrows⟩ := scanAll_ok E hscan
    have hlist : l = w2.state E.table := by rw [← hall, ← hl1.1]
    have hst : w3.state = w2.state := hl1.2
    rw [hr2] at hrows
    refine ⟨_, _, hlist.trans hr2, hne, ?_, ?_⟩
    · rw [(GetByID_ref_of eng E driver d _ w3 _ (by rw [hst, hr2])).1]
      apply @getRow_of_select eng E _ _ _ []
      · simp [selectRows, Row.satisfies_key, Engine.keyOf_int, List.filter_cons, hne, hne.symm]
      · exact hrows _ (List.mem_cons_self _ _)
    · rw [(GetByID_ref_of eng E driver d _ w3 _ (by rw [hst, hr2])).1]
      apply @getRow_of_select eng E _ _ _ []
      · simp [selectRows, Row.satisfies_key, Engine.keyOf_int, List.filter_cons, hne, hne.symm]
      · exact hrows _ (List.mem_cons_of_mem _ (List.mem_cons_self _ _))

/-- C4, amended: on the reference database, in a table where the database
changes no column on its own, when `GetByID(id)` returns a row `old`, the record
`r` names no column twice, `UpdateColumns(id, r)` succeeds and a `GetByID(id)`
made afterwards succeeds, then the row it returns holds in every column `r`
names the value the database stored for the value of `r` (for the identifier
column: the key that value denotes) and in every other column, the identifier
included, the value of `old`; the rows with another identifier and the other
tables are as they were.  Column names are compared as the database compares
them. -/
theorem UpdateColumns_frame (id : Value) (r : Record) (w : World Store SQL Row)
    (old c : Row) (htouch : ∀ f, eng.touch E.table f = f)
    (hrow : (GetByID (refBuilder E) E.model (refService eng E driver d) id w).1 = (old, none))
    (hnodup : (r.map (fun e => eng.norm e.1)).Nodup)
    (hok : (UpdateColumns (refBuilder E) E.model (refService eng E driver d) id r w).1 = none)
    (hget : (GetByID (refBuilder E) E.model (refService eng E driver d) id
      (UpdateColumns (refBuilder E) E.model (refService eng E driver d) id r w).2).1 =
        (c, none)) :
    (∀ name v, (name, v) ∈ r → eng.norm name ≠ eng.norm E.idColumn →
      ∃ v1, eng.store E.table name v = .ok v1 ∧ c.get eng E.idColumn name = some v1) ∧
    (∀ name v, (name, v) ∈ r → eng.norm name = eng.norm E.idColumn →
      eng.keyOf v = some c.ID) ∧
    (∀ col, (∀ e ∈ r, eng.norm e.1 ≠ eng.norm col) →
      c.get eng E.idColumn col = old.get eng E.idColumn col) ∧
    c.ID = old.ID ∧
    ((UpdateColumns (refBuilder E) E.model (refService eng E driver d) id r w).2.state
        E.table).filter (fun x => !x.satisfies eng E.idColumn ⟨E.idColumn, id⟩) =
      (w.state E.table).filter (fun x => !x.satisfies eng E.idColumn ⟨E.idColumn, id⟩) ∧
    (∀ t, t ≠ E.table →
      (UpdateColumns (refBuilder E) E.model (refService eng E driver d) id r w).2.state t =
        w.state t) := by
  -- the row `old` is the first row of the table whose key `id` denotes
  rw [(GetByID_ref eng E driver d id w).1] at hrow
  obtain ⟨rest0, hsel0, _, _, hkold⟩ := getRow_ok eng E hrow
  -- the statement that was executed
  obtain ⟨kv, cols, key, hp, hk, hst⟩ := UpdateColumns_ref_ok eng E driver d id r w hok
  -- the row `c` is a row of the table after the statement whose key `id` denotes
  rw [(GetByID_ref_of eng E driver d id _ _ (by rw [hst, Function.update_same])).1] at hget
  obtain ⟨rest1, hsel1, hscan, hcin, hkc⟩ := getRow_ok eng E hget
  have hid : c.ID = old.ID := by
    rw [hkold] at hkc
    exact (Option.some.inj hkc).symm
  -- the statement did not move the rows it changed
  have hkeep : key.getD old.ID = old.ID := by
    simp only [List.mem_map] at hcin
    obtain ⟨x, _, hx⟩ := hcin
    by_cases hxs : x.satisfies eng E.idColumn ⟨E.idColumn, id⟩ = true
    · rw [if_pos hxs] at hx
      have h1 : c.ID = key.getD x.ID := by rw [← hx]; rfl
      have h2 : x.ID = old.ID := by
        rw [Row.satisfies_key, decide_eq_true_eq, hkold] at hxs
        exact (Option.some.inj hxs).symm
      rw [← h2, ← h1, hid, h2]
    · rw [if_neg hxs] at hx
      rw [hx, Row.satisfies_key, decide_eq_true_eq] at hxs
      exact absurd hkc hxs
  have hsatf : ∀ x : Row,
      (if x.satisfies eng E.idColumn ⟨E.idColumn, id⟩ then x.assign eng E.table cols key
        else x).satisfies eng E.idColumn ⟨E.idColumn, id⟩ =
      x.satisfies eng E.idColumn ⟨E.idColumn, id⟩ := by
    intro x
    by_cases hx : x.satisfies eng E.idColumn ⟨E.idColumn, id⟩ = true
    · rw [if_pos hx, hx, Row.satisfies_key, decide_eq_true_eq]
      have h2 : x.ID = old.ID := by
        rw [Row.satisfies_key, decide_eq_true_eq, hkold] at hx
        exact (Option.some.inj hx).symm
      simp only [Row.assign, h2, hkeep]
      exact hkold
    · rw [if_neg hx]
  have hcomp : (Row.satisfies eng E.idColumn ⟨E.idColumn, id⟩ ∘ fun x =>
      if x.satisfies eng E.idColumn ⟨E.idColumn, id⟩ then x.assign eng E.table cols key
      else x) = Row.satisfies eng E.idColumn ⟨E.idColumn, id⟩ := by
    funext x; exact hsatf x
  -- so `c` is `old` after the assignments
  have hc : c = old.assign eng E.table cols key := by
    simp only [selectRows, List.filter_map, hcomp] at hsel1
    simp only [selectRows] at hsel0
    rw [hsel0] at hsel1
    have hold : old.satisfies eng E.idColumn ⟨E.idColumn, id⟩ = true := by
      rw [Row.satisfies_key, decide_eq_true_eq]; exact hkold
    simp only [List.map_cons, hold, if_true, List.cons.injEq] at hsel1
    exact hsel1.1.symm
  refine ⟨?_, ?_, ?_, hid, ?_, ?_⟩
  · intro name v hmem hne
    obtain ⟨v1, hs1, hl1⟩ := prepare_lookup eng hp hnodup name v hmem hne
    refine ⟨v1, hs1, ?_⟩
    rw [hc, Row.get_of_ne eng hne]
    simp only [Row.assign]
    rw [lookupCol_setFields, hl1]
  · intro name v hmem hname
    have hkv := (prepare_key eng hp hnodup).1 name v hmem hname
    rw [hkv] at hk
    simp only [setKey] at hk
    split at hk
    · rename_i k hkey
      simp only [Except.ok.injEq] at hk
      rw [hid, ← hkeep, ← hk]
      exact hkey
    · cases hk
  · intro col hcol
    by_cases hK : eng.norm col = eng.norm E.idColumn
    · simp only [Row.get, hK, if_true, hid]
    · rw [Row.get_of_ne eng hK, Row.get_of_ne eng hK, hc]
      simp only [Row.assign]
      rw [lookupCol_setFields, prepare_lookup_none eng hp col hcol, htouch]
  · rw [hst, Function.update_same, List.filter_map]
    have : ((fun x : Row => !x.satisfies eng E.idColumn ⟨E.idColumn, id⟩) ∘ fun x =>
        if x.satisfies eng E.idColumn ⟨E.idColumn, id⟩ then x.assign eng E.table cols key
        else x) = fun x : Row => !x.satisfies eng E.idColumn ⟨E.idColumn, id⟩ := by
      funext x
      simp only [Function.comp, hsatf x]
    rw [this]
    conv_rhs => rw [← List.map_id
      ((w.state E.table).filter (fun x => !x.satisfies eng E.idColumn ⟨E.idColumn, id⟩))]
    apply List.map_congr_left
    intro x hx
    simp only [List.mem_filter, Bool.not_eq_true'] at hx
    simp [hx.2]
  · intro t ht
    rw [hst, Function.update_noteq ht]

end Reference

/-! ## Theorems: a failed build -/

section FailedBuild
variable {σ Q T : Type}

/-- C9, amended: when the builder's `ToSQL` returns an error, the operation
returns at once with an error that wraps it, having made no call on the
database handle except, in `Create`, the read of `DriverName()` that precedes
the build; the database state is unchanged.  `Create` and `Update` return the
entity they were given, `GetByID` the zero entity, `GetList` the nil list. -/
theorem failed_build_touches_nothing (B : Builder Q T) (M : model T)
    (ds : DataServices (DB σ Q T)) (id : Value) (m : T) (record : Record)
    (w : World σ Q T) (e : Error) :
    (B.ToSQL ds.dialect (.select (M.TableName M.zero) none) = .error e →
      GetList B M ds w =
        (([], some (.wrapf "fail to build select sql script" e)),
          ⟨w.state, w.trace ++
            [⟨.ToSQL ds.dialect (.select (M.TableName M.zero) none), some e⟩]⟩)) ∧
    (B.ToSQL ds.dialect (.select (M.TableName M.zero) (some ⟨M.IDColumnName M.zero, id⟩)) =
        .error e →
      GetByID B M ds id w =
        ((M.zero, some (.wrapf "fail to build get sql script" e)),
          ⟨w.state, w.trace ++ [⟨.ToSQL ds.dialect
            (.select (M.TableName M.zero) (some ⟨M.IDColumnName M.zero, id⟩)), some e⟩]⟩)) ∧
    (B.ToSQL ds.dialect
        (if ds.db.DriverName = "postgres" then .insert (M.TableName m) m (some "id")
          else .insert (M.TableName m) m none) = .error e →
      Create B M ds m w =
        ((m, some (.wrapf "fail to build insert sql script" e)),
          ⟨w.state, w.trace ++ [⟨.DriverName, none⟩, ⟨.ToSQL ds.dialect
            (if ds.db.DriverName = "postgres" then .insert (M.TableName m) m (some "id")
              else .insert (M.TableName m) m none), some e⟩]⟩)) ∧
    (B.ToSQL ds.dialect (.update (M.TableName m) (.entity m) ⟨M.IDColumnName m, id⟩) =
        .error e →
      Update B M ds id m w =
        ((m, some (.wrapf "fail to build update sql script" e)),
          ⟨w.state, w.trace ++ [⟨.ToSQL ds.dialect
            (.update (M.TableName m) (.entity m) ⟨M.IDColumnName m, id⟩), some e⟩]⟩)) ∧
    (B.ToSQL ds.dialect
        (.update (M.TableName M.zero) (.record record) ⟨M.IDColumnName M.zero, id⟩) =
        .error e →
      UpdateColumns B M ds id record w =
        (some (.wrapf "fail to build update sql script" e),
          ⟨w.state, w.trace ++ [⟨.ToSQL ds.dialect
            (.update (M.TableName M.zero) (.record record) ⟨M.IDColumnName M.zero, id⟩),
            some e⟩]⟩)) ∧
    (B.ToSQL ds.dialect (.delete (M.TableName M.zero) ⟨M.IDColumnName M.zero, id⟩) =
        .error e →
      Delete B M ds id w =
        (some (.wrapf "fail to build update sql script" e),
          ⟨w.state, w.trace ++ [⟨.ToSQL ds.dialect
            (.delete (M.TableName M.zero) ⟨M.IDColumnName M.zero, id⟩), some e⟩]⟩)) := by
  refine ⟨?_, ?_, ?_, ?_, ?_, ?_⟩
  · intro h
    simp [GetList, callToSQL, h, World.log, errOf]
  · intro h
    simp [GetByID, callToSQL, h, World.log, errOf]
  · intro h
    by_cases hd : ds.db.DriverName = "postgres"
    · simp only [hd, if_true] at h
      simp [Create, callDriverName, callToSQL, hd, h, World.log, errOf, Stmt.Returning]
    · simp only [hd, if_false] at h
      simp [Create, callDriverName, callToSQL, hd, h, World.log, errOf]
  · intro h
    simp [Update, callToSQL, h, World.log, errOf]
  · intro h
    simp [UpdateColumns, callToSQL, h, World.log, errOf]
  · intro h
    simp [Delete, callToSQL, h, World.log, errOf]

end FailedBuild

/-! ## Theorems: construction, options and the dialect -/

/-- C6: the service returned by `NewDataServices(db, WithDialect(d))` reports
`d` from `GetDialect`. -/
theorem GetDialect_WithDialect {D : Type} (db : D) (d : DialectWrapper) :
    GetDialect (NewDataServices db [WithDialect d]) = d := rfl

/-- C10 as stated fails: an option may overwrite the service it is given
(`*s = NewDataServices(other)`), and then the service returned does not hold
the handle passed to `NewDataServices`. -/
theorem NewDataServices_option_replaces_handle :
    (NewDataServices (refDB Engine.plain unitPerson "mysql")
      [fun _ => NewDataServices (refDB Engine.plain unitPerson "postgres") []]).db ≠
      refDB Engine.plain unitPerson "mysql" := by
  intro h
  have h2 := congrArg DB.DriverName h
  revert h2
  decide

/-- C10, amended: `NewDataServices(db, options...)` applies the options in list
order to a service that holds `db` and goqu's "default" dialect, which is what
it returns for the empty list; `WithDialect` sets the dialect and never changes
the handle, so when every option is a `WithDialect` option the service holds
`db` and its dialect is that of the last option. -/
theorem NewDataServices_applies_options {D : Type} (db : D) :
    NewDataServices db [] = { db := db, dialect := goqu.Dialect "default" } ∧
    (∀ (options : List (DataServices D → DataServices D)) (option : DataServices D → DataServices D),
      NewDataServices db (options ++ [option]) = option (NewDataServices db options)) ∧
    (∀ (s : DataServices D) (d : DialectWrapper),
      (WithDialect d s).db = s.db ∧ (WithDialect d s).dialect = d) ∧
    (∀ ds : List DialectWrapper, (NewDataServices db (ds.map WithDialect)).db = db) ∧
    (∀ (ds : List DialectWrapper) (d : DialectWrapper),
      (NewDataServices db ((ds ++ [d]).map WithDialect)).dialect = d) := by
  refine ⟨rfl, ?_, ?_, ?_, ?_⟩
  · intro options option
    simp [NewDataServices, List.foldl_append]
  · intro s d
    exact ⟨rfl, rfl⟩
  · intro ds
    induction ds using List.reverseRecOn with
    | nil => rfl
    | append_singleton ds d ih =>
      simp only [List.map_append, List.map_cons, List.map_nil, NewDataServices,
        List.foldl_append, List.foldl_cons, List.foldl_nil] at ih ⊢
      exact ih
  · intro ds d
    simp [NewDataServices, List.foldl_append, WithDialect]

/-! ## Theorems: the postgres insert -/

/-- C8 fails on the code: for the `Person` of the tests, whose identifier column
is `person_id`, the one statement `Create` builds on a postgres handle is an
insert that returns the column `id`. -/
theorem Create_postgres_returns_column_id :
    unitPerson.model.IDColumnName ⟨0, [("name", .text "b")]⟩ = "person_id" ∧
    (builtStmts (Create (refBuilder unitPerson) unitPerson.model postgresService
      ⟨0, [("name", .text "b")]⟩ ⟨emptyStore, []⟩).2.trace).map Stmt.returningColumn =
      [some "id"] ∧
    (builtStmts (Create (refBuilder unitPerson) unitPerson.model postgresService
      ⟨0, [("name", .text "b")]⟩ ⟨emptyStore, []⟩).2.trace).map Stmt.table = ["person"] := by
  decide

/-- C1 fails on the code: on a postgres handle, with identifier column
`person_id` and an entity that has a column `id`, `Create` succeeds, stores the
entity under key 2 and returns the row of key 1, whose `name` is not the
entity's. -/
theorem Create_postgres_returns_other_row :
    (Create (refBuilder unitPerson) unitPerson.model postgresService
      ⟨0, [("id", .int 1), ("name", .text "b")]⟩ ⟨onePerson, []⟩).1 =
      (⟨1, [("name", .text "a")]⟩, none) ∧
    (Create (refBuilder unitPerson) unitPerson.model postgresService
      ⟨0, [("id", .int 1), ("name", .text "b")]⟩ ⟨onePerson, []⟩).2.state "person" =
      [⟨1, [("name", .text "a")]⟩, ⟨2, [("id", .int 1), ("name", .text "b")]⟩] := by
  decide

/-! ## Counterexamples and instances -/

/-- C2 as stated fails.  For a `Person` whose `Age` is tagged `skipupdate`,
`Update(1, u)` succeeds and returns the stored age 25, not the 30 of `u`.  And
on a database whose `created_at` keeps a time to the second, `Update(1, u)`
succeeds and returns the time without the fraction of a second `u` has. -/
theorem Update_returns_other_values :
    (Update (refBuilder taggedPerson) taggedPerson.model
      (refService Engine.plain taggedPerson "mysql" (goqu.Dialect "mysql")) (.int 1)
      ⟨1, [("name", .text "b"), ("age", .int 30)]⟩ ⟨agedPerson, []⟩).1 =
      (⟨1, [("name", .text "b"), ("age", .int 25)]⟩, none) ∧
    (Update (refBuilder unitPerson) unitPerson.model
      (refService Engine.seconds unitPerson "mysql" (goqu.Dialect "mysql")) (.int 1)
      ⟨1, [("name", .text "b"), ("created_at", .text "2024-01-02 03:04:05.678")]⟩
      ⟨onePerson, []⟩).1 =
      (⟨1, [("name", .text "b"), ("created_at", .text "2024-01-02 03:04:05")]⟩, none) := by
  decide

/-- C4 as stated fails.  `UpdateColumns(1, {person_id: 9})` succeeds on a table
whose only row has identifier 1, and `GetByID(1)` afterwards finds no row.
`UpdateColumns(1, {name: NULL})` succeeds, and `GetByID(1)` afterwards fails to
scan the row.  On a database whose `created_at` keeps a time to the second,
`UpdateColumns(1, {created_at: t})` succeeds and `GetByID(1)` afterwards returns
`t` without its fraction of a second.  Where `name` and `NAME` are one column,
`UpdateColumns(1, {name: a2, NAME: b2})` leaves one of the two values.  And
where `created_at` is declared `ON UPDATE CURRENT_TIMESTAMP`,
`UpdateColumns(1, {name: z})` changes `created_at`, which the record does not
name. -/
theorem UpdateColumns_renames_identifier :
    ((GetByID (refBuilder unitPerson) unitPerson.model mysqlService (.int 1)
      ⟨onePerson, []⟩).1 = (⟨1, [("name", .text "a")]⟩, none) ∧
    (UpdateColumns (refBuilder unitPerson) unitPerson.model mysqlService (.int 1)
      [("person_id", .int 9)] ⟨onePerson, []⟩).1 = none ∧
    (GetByID (refBuilder unitPerson) unitPerson.model mysqlService (.int 1)
      (UpdateColumns (refBuilder unitPerson) unitPerson.model mysqlService (.int 1)
        [("person_id", .int 9)] ⟨onePerson, []⟩).2).1 =
      (unitPerson.model.zero, some ErrNoRows)) ∧
    ((UpdateColumns (refBuilder unitPerson) unitPerson.model mysqlService (.int 1)
      [("name", .null)] ⟨onePerson, []⟩).1 = none ∧
    (GetByID (refBuilder unitPerson) unitPerson.model mysqlService (.int 1)
      (UpdateColumns (refBuilder unitPerson) unitPerson.model mysqlService (.int 1)
        [("name", .null)] ⟨onePerson, []⟩).2).1 =
      (unitPerson.model.zero, some ErrScan)) ∧
    ((UpdateColumns (refBuilder unitPerson) unitPerson.model
      (refService Engine.seconds unitPerson "mysql" (goqu.Dialect "mysql")) (.int 1)
      [("created_at", .text "2024-01-02 03:04:05.678")] ⟨onePerson, []⟩).1 = none ∧
    (GetByID (refBuilder unitPerson) unitPerson.model
      (refService Engine.seconds unitPerson "mysql" (goqu.Dialect "mysql")) (.int 1)
      (UpdateColumns (refBuilder unitPerson) unitPerson.model
        (refService Engine.seconds unitPerson "mysql" (goqu.Dialect "mysql")) (.int 1)
        [("created_at", .text "2024-01-02 03:04:05.678")] ⟨onePerson, []⟩).2).1 =
      (⟨1, [("name", .text "a"), ("created_at", .text "2024-01-02 03:04:05")]⟩, none)) ∧
    ((UpdateColumns (refBuilder unitPerson) unitPerson.model
      (refService Engine.folding unitPerson "mysql" (goqu.Dialect "mysql")) (.int 1)
      [("name", .text "a2"), ("NAME", .text "b2")] ⟨onePerson, []⟩).1 = none ∧
    (GetByID (refBuilder unitPerson) unitPerson.model
      (refService Engine.folding unitPerson "mysql" (goqu.Dialect "mysql")) (.int 1)
      (UpdateColumns (refBuilder unitPerson) unitPerson.model
        (refService Engine.folding unitPerson "mysql" (goqu.Dialect "mysql")) (.int 1)
        [("name", .text "a2"), ("NAME", .text "b2")] ⟨onePerson, []⟩).2).1 =
      (⟨1, [("name", .text "a2")]⟩, none)) ∧
    ((UpdateColumns (refBuilder unitPerson) unitPerson.model
      (refService Engine.stamping unitPerson "mysql" (goqu.Dialect "mysql")) (.int 1)
      [("name", .text "z")] ⟨datedPerson, []⟩).1 = none ∧
    (GetByID (refBuilder unitPerson) unitPerson.model
      (refService Engine.stamping unitPerson "mysql" (goqu.Dialect "mysql")) (.int 1)
      (UpdateColumns (refBuilder unitPerson) unitPerson.model
        (refService Engine.stamping unitPerson "mysql" (goqu.Dialect "mysql")) (.int 1)
        [("name", .text "z")] ⟨datedPerson, []⟩).2).1 =
      (⟨1, [("name", .text "z"), ("created_at", .text "2024-01-02 03:04:06")]⟩, none)) := by
  decide

/-- C5 as stated fails: for a `Person` kept in one table per shard, two `Create`s
on the empty database succeed, the second one storing its entity in the table
`person_b` and returning the row of key 1 of the table `person`, and `GetList`
then returns one entity. -/
theorem Create_in_other_table :
    emptyStore shardedPerson.table = [] ∧
    (Create (refBuilder shardedPerson) shardedPerson.model
      (refService Engine.plain shardedPerson "mysql" (goqu.Dialect "mysql"))
      ⟨0, [("shard", .text ""), ("name", .text "a")]⟩ ⟨emptyStore, []⟩).1 =
      (⟨1, [("shard", .text ""), ("name", .text "a")]⟩, none) ∧
    (Create (refBuilder shardedPerson) shardedPerson.model
      (refService Engine.plain shardedPerson "mysql" (goqu.Dialect "mysql"))
      ⟨0, [("shard", .text "b"), ("name", .text "b")]⟩
      (Create (refBuilder shardedPerson) shardedPerson.model
        (refService Engine.plain shardedPerson "mysql" (goqu.Dialect "mysql"))
        ⟨0, [("shard", .text ""), ("name", .text "a")]⟩ ⟨emptyStore, []⟩).2).1 =
      (⟨1, [("shard", .text ""), ("name", .text "a")]⟩, none) ∧
    (GetList (refBuilder shardedPerson) shardedPerson.model
      (refService Engine.plain shardedPerson "mysql" (goqu.Dialect "mysql"))
      (Create (refBuilder shardedPerson) shardedPerson.model
        (refService Engine.plain shardedPerson "mysql" (goqu.Dialect "mysql"))
        ⟨0, [("shard", .text "b"), ("name", .text "b")]⟩
        (Create (refBuilder shardedPerson) shardedPerson.model
          (refService Engine.plain shardedPerson "mysql" (goqu.Dialect "mysql"))
          ⟨0, [("shard", .text ""), ("name", .text "a")]⟩ ⟨emptyStore, []⟩).2).2).1 =
      ([⟨1, [("shard", .text ""), ("name", .text "a")]⟩], none) := by
  decide

/-- C9 as stated fails: when the build fails, `Create` has made a call on the
database handle, `DriverName()`, before it. -/
theorem Create_failed_build_calls_handle :
    rejectAll.ToSQL mysqlService.dialect
      (.insert "person" ⟨0, [("name", .text "b")]⟩ none) =
      .error (.base "goqu: unable to build sql") ∧
    (Create rejectAll unitPerson.model mysqlService ⟨0, [("name", .text "b")]⟩
      ⟨emptyStore, []⟩).2.trace.map (fun ev => ev.call.onHandle) = [true, false] := by
  constructor
  · rfl
  · decide

/-- Instance of C2, amended: `Update(1, {name: b, age: 30})` for the `Person`
whose `Age` is tagged `skipupdate`. -/
theorem Update_then_GetByID_witness :
    (taggedPerson.tableOf ⟨1, [("name", .text "b"), ("age", .int 30)]⟩ =
        taggedPerson.table ∧
      taggedPerson.idColumnOf ⟨1, [("name", .text "b"), ("age", .int 30)]⟩ =
        taggedPerson.idColumn ∧
      ((taggedPerson.updateColumns ⟨1, [("name", .text "b"), ("age", .int 30)]⟩).map
        (fun c => Engine.plain.norm c.1)).Nodup ∧
      (Update (refBuilder taggedPerson) taggedPerson.model
        (refService Engine.plain taggedPerson "mysql" (goqu.Dialect "mysql")) (.int 1)
        ⟨1, [("name", .text "b"), ("age", .int 30)]⟩ ⟨agedPerson, []⟩).1.2 = none) ∧
    Engine.plain.keyOf (.int 1) =
      some (Update (refBuilder taggedPerson) taggedPerson.model
        (refService Engine.plain taggedPerson "mysql" (goqu.Dialect "mysql")) (.int 1)
        ⟨1, [("name", .text "b"), ("age", .int 30)]⟩ ⟨agedPerson, []⟩).1.1.ID ∧
    (∃ v1, Engine.plain.store "person" "name" (.text "b") = .ok v1 ∧
      (Update (refBuilder taggedPerson) taggedPerson.model
        (refService Engine.plain taggedPerson "mysql" (goqu.Dialect "mysql")) (.int 1)
        ⟨1, [("name", .text "b"), ("age", .int 30)]⟩ ⟨agedPerson, []⟩).1.1.get
          Engine.plain "person_id" "name" = some v1) ∧
    (GetByID (refBuilder taggedPerson) taggedPerson.model
      (refService Engine.plain taggedPerson "mysql" (goqu.Dialect "mysql")) (.int 1)
      (Update (refBuilder taggedPerson) taggedPerson.model
        (refService Engine.plain taggedPerson "mysql" (goqu.Dialect "mysql")) (.int 1)
        ⟨1, [("name", .text "b"), ("age", .int 30)]⟩ ⟨agedPerson, []⟩).2).1 =
      ((Update (refBuilder taggedPerson) taggedPerson.model
        (refService Engine.plain taggedPerson "mysql" (goqu.Dialect "mysql")) (.int 1)
        ⟨1, [("name", .text "b"), ("age", .int 30)]⟩ ⟨agedPerson, []⟩).1.1, none) :=
  have h := Update_then_GetByID Engine.plain taggedPerson "mysql" (goqu.Dialect "mysql")
    (.int 1) ⟨1, [("name", .text "b"), ("age", .int 30)]⟩ ⟨agedPerson, []⟩
    rfl rfl (by decide) (by decide)
  ⟨⟨rfl, rfl, by decide, by decide⟩, h.1,
    h.2.1 "name" (.text "b") (by decide) (by decide), h.2.2⟩

/-- Instance of C3: deleting identifier 1 from the one-row table. -/
theorem Delete_then_GetList_witness :
    ((Delete (refBuilder unitPerson) unitPerson.model mysqlService (.int 1)
        ⟨onePerson, []⟩).1 = none ∧
      ∀ e ∈ (GetList (refBuilder unitPerson) unitPerson.model mysqlService
          (Delete (refBuilder unitPerson) unitPerson.model mysqlService (.int 1)
            ⟨onePerson, []⟩).2).1.1,
        e.get Engine.plain "person_id" "person_id" ≠ some (.int 1) ∧
          Engine.plain.keyOf (.int 1) ≠ some e.ID) ∧
    ((GetList (refBuilder unitPerson) unitPerson.model mysqlService
        ⟨onePerson, []⟩).1 = ([⟨1, [("name", .text "a")]⟩], none) ∧
      (GetList (refBuilder unitPerson) unitPerson.model mysqlService
        (DeleteEach (refBuilder unitPerson) unitPerson.model mysqlService
          ((GetList (refBuilder unitPerson) unitPerson.model mysqlService
            ⟨onePerson, []⟩).1.1.map (fun e => Value.int e.ID))
          (GetList (refBuilder unitPerson) unitPerson.model mysqlService
            ⟨onePerson, []⟩).2).2).1 = ([], none)) :=
  ⟨⟨by decide,
      (Delete_then_GetList Engine.plain unitPerson "mysql" (goqu.Dialect "mysql") (.int 1)
        ⟨onePerson, []⟩).1 (by decide)⟩,
    ⟨by decide,
      (Delete_then_GetList Engine.plain unitPerson "mysql" (goqu.Dialect "mysql") (.int 1)
        ⟨onePerson, []⟩).2 (by decide) (by decide)⟩⟩

/-- Instance of C4, amended: `UpdateColumns(1, {NAME: z})` on the one-row table
of a database that compares column names without regard to case. -/
theorem UpdateColumns_frame_witness :
    ((GetByID (refBuilder unitPerson) unitPerson.model
        (refService Engine.folding unitPerson "mysql" (goqu.Dialect "mysql")) (.int 1)
        ⟨onePerson, []⟩).1 = (⟨1, [("name", .text "a")]⟩, none) ∧
      (([("NAME", .text "z")] : Record).map (fun e => Engine.folding.norm e.1)).Nodup ∧
      (UpdateColumns (refBuilder unitPerson) unitPerson.model
        (refService Engine.folding unitPerson "mysql" (goqu.Dialect "mysql")) (.int 1)
        [("NAME", .text "z")] ⟨onePerson, []⟩).1 = none ∧
      (GetByID (refBuilder unitPerson) unitPerson.model
        (refService Engine.folding unitPerson "mysql" (goqu.Dialect "mysql")) (.int 1)
        (UpdateColumns (refBuilder unitPerson) unitPerson.model
          (refService Engine.folding unitPerson "mysql" (goqu.Dialect "mysql")) (.int 1)
          [("NAME", .text "z")] ⟨onePerson, []⟩).2).1 = (⟨1, [("name", .text "z")]⟩, none)) ∧
    (∃ v1, Engine.folding.store "person" "NAME" (.text "z") = .ok v1 ∧
      (⟨1, [("name", .text "z")]⟩ : Row).get Engine.folding "person_id" "NAME" = some v1) ∧
    (⟨1, [("name", .text "z")]⟩ : Row).get Engine.folding "person_id" "person_id" =
      (⟨1, [("name", .text "a")]⟩ : Row).get Engine.folding "person_id" "person_id" :=
  have h := UpdateColumns_frame Engine.folding unitPerson "mysql" (goqu.Dialect "mysql")
    (.int 1) [("NAME", .text "z")] ⟨onePerson, []⟩ ⟨1, [("name", .text "a")]⟩
    ⟨1, [("name", .text "z")]⟩ (fun _ => rfl) (by decide) (by decide) (by decide) (by decide)
  ⟨⟨by decide, by decide, by decide, by decide⟩,
    h.1 "NAME" (.text "z") (by decide) (by decide),
    h.2.2.1 "person_id" (by decide)⟩

/-- Instance of C5: two `Create`s on the empty database, then `GetList`. -/
theorem GetList_whole_table_witness :
    (emptyStore unitPerson.table = [] ∧
      unitPerson.tableOf ⟨0, [("name", .text "a")]⟩ = unitPerson.table ∧
      unitPerson.tableOf ⟨0, [("name", .text "b")]⟩ = unitPerson.table) ∧
    (Create (refBuilder unitPerson) unitPerson.model mysqlService
      ⟨0, [("name", .text "a")]⟩ ⟨emptyStore, []⟩).1 = (⟨1, [("name", .text "a")]⟩, none) ∧
    (Create (refBuilder unitPerson) unitPerson.model mysqlService
      ⟨0, [("name", .text "b")]⟩
      (Create (refBuilder unitPerson) unitPerson.model mysqlService
        ⟨0, [("name", .text "a")]⟩ ⟨emptyStore, []⟩).2).1 =
      (⟨2, [("name", .text "b")]⟩, none) ∧
    (GetList (refBuilder unitPerson) unitPerson.model mysqlService
      (Create (refBuilder unitPerson) unitPerson.model mysqlService
        ⟨0, [("name", .text "b")]⟩
        (Create (refBuilder unitPerson) unitPerson.model mysqlService
          ⟨0, [("name", .text "a")]⟩ ⟨emptyStore, []⟩).2).2).1 =
      ([⟨1, [("name", .text "a")]⟩, ⟨2, [("name", .text "b")]⟩], none) ∧
    (∃ x y : Row,
      ([⟨1, [("name", .text "a")]⟩, ⟨2, [("name", .text "b")]⟩] : List Row) = [x, y] ∧
      x.ID ≠ y.ID ∧
      (GetByID (refBuilder unitPerson) unitPerson.model mysqlService (.int x.ID)
        (GetList (refBuilder unitPerson) unitPerson.model mysqlService
          (Create (refBuilder unitPerson) unitPerson.model mysqlService
            ⟨0, [("name", .text "b")]⟩
            (Create (refBuilder unitPerson) unitPerson.model mysqlService
              ⟨0, [("name", .text "a")]⟩ ⟨emptyStore, []⟩).2).2).2).1 = (x, none) ∧
      (GetByID (refBuilder unitPerson) unitPerson.model mysqlService (.int y.ID)
        (GetList (refBuilder unitPerson) unitPerson.model mysqlService
          (Create (refBuilder unitPerson) unitPerson.model mysqlService
            ⟨0, [("name", .text "b")]⟩
            (Create (refBuilder unitPerson) unitPerson.model mysqlService
              ⟨0, [("name", .text "a")]⟩ ⟨emptyStore, []⟩).2).2).2).1 = (y, none)) :=
  ⟨⟨rfl, rfl, rfl⟩, by decide, by decide, by decide,
    (GetList_whole_table Engine.plain unitPerson "mysql" (goqu.Dialect "mysql")
      ⟨emptyStore, []⟩).2
      ⟨0, [("name", .text "a")]⟩ ⟨0, [("name", .text "b")]⟩
      ⟨1, [("name", .text "a")]⟩ ⟨2, [("name", .text "b")]⟩ _ _ _ _ rfl rfl rfl
      (Prod.ext (by decide) rfl) (Prod.ext (by decide) rfl) (Prod.ext (by decide) rfl)⟩

/-- Instance of C9, amended: every operation on a builder that rejects every
dataset. -/
theorem failed_build_touches_nothing_witness :
    (GetList rejectAll unitPerson.model mysqlService ⟨onePerson, []⟩).1 =
      ([], some (.wrapf "fail to build select sql script"
        (.base "goqu: unable to build sql"))) ∧
    (GetByID rejectAll unitPerson.model mysqlService (.int 1) ⟨onePerson, []⟩).1 =
      (unitPerson.model.zero, some (.wrapf "fail to build get sql script"
        (.base "goqu: unable to build sql"))) ∧
    (Create rejectAll unitPerson.model mysqlService ⟨0, [("name", .text "b")]⟩
      ⟨onePerson, []⟩).1 =
      (⟨0, [("name", .text "b")]⟩, some (.wrapf "fail to build insert sql script"
        (.base "goqu: unable to build sql"))) ∧
    (Update rejectAll unitPerson.model mysqlService (.int 1) ⟨0, [("name", .text "b")]⟩
      ⟨onePerson, []⟩).1 =
      (⟨0, [("name", .text "b")]⟩, some (.wrapf "fail to build update sql script"
        (.base "goqu: unable to build sql"))) ∧
    (UpdateColumns rejectAll unitPerson.model mysqlService (.int 1) [("name", .text "z")]
      ⟨onePerson, []⟩).1 =
      some (.wrapf "fail to build update sql script" (.base "goqu: unable to build sql")) ∧
    (Delete rejectAll unitPerson.model mysqlService (.int 1) ⟨onePerson, []⟩).1 =
      some (.wrapf "fail to build update sql script" (.base "goqu: unable to build sql")) ∧
    (Delete rejectAll unitPerson.model mysqlService (.int 1) ⟨onePerson, []⟩).2.state =
      onePerson :=
  have h := failed_build_touches_nothing rejectAll unitPerson.model mysqlService (.int 1)
    ⟨0, [("name", .text "b")]⟩ [("name", .text "z")] ⟨onePerson, []⟩
    (.base "goqu: unable to build sql")
  ⟨congrArg Prod.fst (h.1 rfl), congrArg Prod.fst (h.2.1 rfl),
    congrArg Prod.fst (h.2.2.1 rfl), congrArg Prod.fst (h.2.2.2.1 rfl),
    congrArg Prod.fst (h.2.2.2.2.1 rfl), congrArg Prod.fst (h.2.2.2.2.2 rfl),
    congrArg (fun r => r.2.state) (h.2.2.2.2.2 rfl)⟩

end dataservicex
